import Mathlib

set_option maxRecDepth 100000
set_option maxHeartbeats 2000000

/-!
# Verification of the Tor shared-random / hidden-service introduction core

This file shallowly embeds the parts of the `andathan/tor` tree that the
design document describes: the shared-random-value (SRV) computation of the
prop-250 draft (`shared-random.c`, draft revision), the SR state layer
(`shared-random-state.c`), the `sr_parse_srv` vote/state line parser, the
trunnel codec for `ESTABLISH_INTRO` / `INTRO_ESTABLISHED` cells
(`cell_establish_intro.c`), the service-side introduction circuit handler
(`hs_circuit.c`) and the INTRODUCE2 handler.

Machine integers are modelled as `Nat` with explicit reductions mod 2^w
where the C code can overflow; byte strings are `List Nat` with every
element `< 256`; C functions that can fail return `Option`/`Except`; C
`tor_assert` failures are modelled as `none` results.

The cryptographic primitives SHA-256, SHA3-256 and HMAC-SHA256 that the
code calls (`crypto_digest256`, `crypto_hmac_sha256`) are implemented
below as executable pure functions so that concrete SRV computations can
be evaluated inside proofs.
-/

namespace Tor

/-! ## Byte-level helpers -/

/-- 32-bit right rotation, as used by SHA-256. -/
def rotr32 (x n : Nat) : Nat := ((x >>> n) ||| (x <<< (32 - n))) % 4294967296

/-- 64-bit left rotation, as used by Keccak. -/
def rotl64 (x n : Nat) : Nat := ((x <<< n) ||| (x >>> (64 - n))) % 18446744073709551616

/-- Big-endian 8-byte encoding of a natural number (low 64 bits). -/
def be64 (n : Nat) : List Nat :=
  [n >>> 56 % 256, n >>> 48 % 256, n >>> 40 % 256, n >>> 32 % 256,
   n >>> 24 % 256, n >>> 16 % 256, n >>> 8 % 256, n % 256]

/-- Split a list into chunks of `n` elements, recursing on a fuel bound so
that the definition is structurally recursive (and hence reduces inside
the kernel).  -/
def chunksGo (n : Nat) : Nat → List Nat → List (List Nat)
  | _, [] => []
  | 0, _ :: _ => []
  | fuel + 1, a :: t => ((a :: t).take n) :: chunksGo n fuel ((a :: t).drop n)

/-- Split a list into chunks of `n` elements (`n > 0`; the input length is
a multiple of `n` wherever this is used).  The list's length is enough
fuel since each step consumes at least one element. -/
def chunks (n : Nat) (l : List Nat) : List (List Nat) :=
  chunksGo n l.length l

/-! ## SHA-256 (FIPS 180-4), over byte lists -/

/-- The 64 SHA-256 round constants. -/
def sha256K : List Nat :=
  [1116352408, 1899447441, 3049323471, 3921009573,
   961987163, 1508970993, 2453635748, 2870763221,
   3624381080, 310598401, 607225278, 1426881987,
   1925078388, 2162078206, 2614888103, 3248222580,
   3835390401, 4022224774, 264347078, 604807628,
   770255983, 1249150122, 1555081692, 1996064986,
   2554220882, 2821834349, 2952996808, 3210313671,
   3336571891, 3584528711, 113926993, 338241895,
   666307205, 773529912, 1294757372, 1396182291,
   1695183700, 1986661051, 2177026350, 2456956037,
   2730485921, 2820302411, 3259730800, 3345764771,
   3516065817, 3600352804, 4094571909, 275423344,
   430227734, 506948616, 659060556, 883997877,
   958139571, 1322822218, 1537002063, 1747873779,
   1955562222, 2024104815, 2227730452, 2361852424,
   2428436474, 2756734187, 3204031479, 3329325298]

/-- SHA-256 initial hash value. -/
def sha256H0 : List Nat :=
  [1779033703, 3144134277, 1013904242, 2773480762,
   1359893119, 2600822924, 528734635, 1541459225]

/-- Merkle–Damgård padding for SHA-256. -/
def sha256pad (msg : List Nat) : List Nat :=
  let len := msg.length
  let zeros := (64 + 56 - (len + 1) % 64) % 64
  msg ++ [0x80] ++ List.replicate zeros 0 ++ be64 (8 * len)

/-- Assemble big-endian 32-bit words from bytes. -/
def beWords32 : List Nat → List Nat
  | a :: b :: c :: d :: rest => (((a * 256 + b) * 256 + c) * 256 + d) :: beWords32 rest
  | _ => []

/-- Message schedule: extend 16 words to 64. -/
def sha256schedule (w16 : List Nat) : List Nat :=
  (List.range 48).foldl
    (fun w _ =>
      let i := w.length
      let s0w := w.getD (i - 15) 0
      let s1w := w.getD (i - 2) 0
      let s0 := (rotr32 s0w 7) ^^^ (rotr32 s0w 18) ^^^ (s0w >>> 3)
      let s1 := (rotr32 s1w 17) ^^^ (rotr32 s1w 19) ^^^ (s1w >>> 10)
      w ++ [(w.getD (i - 16) 0 + s0 + w.getD (i - 7) 0 + s1) % 4294967296])
    w16

/-- One SHA-256 compression step for round word `wi` and constant `ki`. -/
def sha256round (st : List Nat) (wi ki : Nat) : List Nat :=
  let a := st.getD 0 0
  let b := st.getD 1 0
  let c := st.getD 2 0
  let d := st.getD 3 0
  let e := st.getD 4 0
  let f := st.getD 5 0
  let g := st.getD 6 0
  let h := st.getD 7 0
  let S1 := (rotr32 e 6) ^^^ (rotr32 e 11) ^^^ (rotr32 e 25)
  let ch := (e &&& f) ^^^ ((4294967295 ^^^ e) &&& g)
  let t1 := (h + S1 + ch + ki + wi) % 4294967296
  let S0 := (rotr32 a 2) ^^^ (rotr32 a 13) ^^^ (rotr32 a 22)
  let mj := (a &&& b) ^^^ (a &&& c) ^^^ (b &&& c)
  let t2 := (S0 + mj) % 4294967296
  [(t1 + t2) % 4294967296, a, b, c, (d + t1) % 4294967296, e, f, g]

/-- Compress one 64-byte block into the running hash value. -/
def sha256compress (h : List Nat) (block : List Nat) : List Nat :=
  let w := sha256schedule (beWords32 block)
  let fin := (List.zip w sha256K).foldl (fun st p => sha256round st p.1 p.2) h
  (List.range 8).map (fun i => (h.getD i 0 + fin.getD i 0) % 4294967296)

/-- SHA-256 of a byte list, as a 32-element byte list. -/
def sha256 (msg : List Nat) : List Nat :=
  let final := (chunks 64 (sha256pad msg)).foldl sha256compress sha256H0
  final.foldr (fun w acc => [w >>> 24 % 256, w >>> 16 % 256, w >>> 8 % 256, w % 256] ++ acc) []

/-! ## SHA3-256 (FIPS 202 / Keccak-f[1600] with rate 1088) -/

/-- Keccak round constants. -/
def keccakRC : List Nat :=
  [1, 32898, 9223372036854808714,
   9223372039002292224, 32907, 2147483649,
   9223372039002292353, 9223372036854808585, 138,
   136, 2147516425, 2147483658,
   2147516555, 9223372036854775947, 9223372036854808713,
   9223372036854808579, 9223372036854808578, 9223372036854775936,
   32778, 9223372039002259466, 9223372039002292353,
   9223372036854808704, 2147483649, 9223372039002292232]

/-- Keccak rotation offsets, indexed by `x + 5*y`. -/
def keccakRot : List Nat :=
  [0, 1, 62, 28, 27] ++ [36, 44, 6, 55, 20] ++
    [3, 10, 43, 25, 39] ++ [41, 45, 15, 21, 8] ++ [18, 2, 61, 56, 14]

/-- Lane accessor for a 25-lane state. -/
def lane (st : List Nat) (x y : Nat) : Nat := st.getD (x % 5 + 5 * (y % 5)) 0

/-- One Keccak-f round with round constant `rc`. -/
def keccakRound (st : List Nat) (rc : Nat) : List Nat :=
  let c := (List.range 5).map (fun x =>
    lane st x 0 ^^^ lane st x 1 ^^^ lane st x 2 ^^^ lane st x 3 ^^^ lane st x 4)
  let d := (List.range 5).map (fun x =>
    c.getD ((x + 4) % 5) 0 ^^^ rotl64 (c.getD ((x + 1) % 5) 0) 1)
  let a1 := (List.range 25).map (fun i => st.getD i 0 ^^^ d.getD (i % 5) 0)
  -- ρ and π: B[y, 2x+3y] = rotl(A[x, y], r[x, y])
  let b := (List.range 25).map (fun i =>
    let x' := i % 5
    let y' := i / 5
    -- find (x, y) with y = x', (2x + 3y) % 5 = y', i.e. x = (y' + 2*x') * 3 % 5
    let x := (y' + 2 * x') * 3 % 5
    let y := x'
    rotl64 (lane a1 x y) (keccakRot.getD (x + 5 * y) 0))
  let chi := (List.range 25).map (fun i =>
    let x := i % 5
    let y := i / 5
    lane b x y ^^^ ((18446744073709551615 ^^^ lane b (x + 1) y) &&& lane b (x + 2) y))
  (List.range 25).map (fun i => if i = 0 then chi.getD 0 0 ^^^ rc else chi.getD i 0)

/-- The full Keccak-f[1600] permutation (24 rounds). -/
def keccakF (st : List Nat) : List Nat := keccakRC.foldl keccakRound st

/-- SHA3 padding (domain byte 0x06, final bit 0x80) to a multiple of 136 bytes. -/
def sha3pad (msg : List Nat) : List Nat :=
  let padlen := 136 - msg.length % 136
  if padlen = 1 then msg ++ [0x86]
  else msg ++ [0x06] ++ List.replicate (padlen - 2) 0 ++ [0x80]

/-- Interpret a 136-byte block as 17 little-endian 64-bit lanes. -/
def leLanes : List Nat → List Nat
  | b0 :: b1 :: b2 :: b3 :: b4 :: b5 :: b6 :: b7 :: rest =>
    (b0 + 256 * (b1 + 256 * (b2 + 256 * (b3 + 256 * (b4 + 256 * (b5 + 256 * (b6 + 256 * b7)))))))
      :: leLanes rest
  | _ => []

/-- Absorb one block into the sponge state and permute. -/
def sha3absorb (st : List Nat) (block : List Nat) : List Nat :=
  let ls := leLanes block
  keccakF ((List.range 25).map (fun i => st.getD i 0 ^^^ ls.getD i 0))

/-- Little-endian 8-byte encoding of a 64-bit lane. -/
def le64 (n : Nat) : List Nat :=
  [n % 256, n >>> 8 % 256, n >>> 16 % 256, n >>> 24 % 256,
   n >>> 32 % 256, n >>> 40 % 256, n >>> 48 % 256, n >>> 56 % 256]

/-- SHA3-256 of a byte list, as a 32-element byte list. -/
def sha3_256 (msg : List Nat) : List Nat :=
  let st := (chunks 136 (sha3pad msg)).foldl sha3absorb (List.replicate 25 0)
  le64 (st.getD 0 0) ++ le64 (st.getD 1 0) ++ le64 (st.getD 2 0) ++ le64 (st.getD 3 0)

/-! ## HMAC-SHA256 (RFC 2104), as `crypto_hmac_sha256` computes it -/

/-- HMAC-SHA256 with arbitrary-length key. -/
def hmacSha256 (key msg : List Nat) : List Nat :=
  let k := if key.length > 64 then sha256 key else key
  let k0 := k ++ List.replicate (64 - k.length) 0
  sha256 ((k0.map (fun b => b ^^^ 0x5c)) ++ sha256 ((k0.map (fun b => b ^^^ 0x36)) ++ msg))

end Tor

namespace Tor

/-!
## Shared-random draft engine (`shared-random.c`, prop-250 draft revision)

The embedding follows the draft revision of `shared-random.c` carried in
the tree (the revision that has `Conflict` lines and an `sr_srv_status_t`
on the SRV object).  A C `char *` string field is modelled as the byte
list of its contents up to (and excluding) the terminating NUL, so byte
lists contain no interior zeros by construction.  `tor_assert` failures
and NULL-pointer dereferences are modelled as a `none` result.

The tree carries two revisions of the shared-random engine; this
namespace embeds the draft one, which is the revision that defines
`compute_shared_random_value`, `generate_srv` and
`generate_srv_disaster`.
-/

namespace Draft

/-- `sr_srv_status_t` of the draft revision: a computed SRV is either
fresh (normal computation) or non-fresh (disaster computation). -/
inductive sr_srv_status_t
  | fresh
  | nonfresh
  deriving DecidableEq, Repr

/-- The draft revision's `sr_srv_t`: a status plus the 32-byte value. -/
structure sr_srv_t where
  status : sr_srv_status_t
  value : List Nat
  deriving DecidableEq, Repr

/-- The fields of the draft `sr_commit_t` read by the SRV computation:
the base64 ed25519 fingerprint of the owning authority and the base64
reveal blob (empty when no reveal has been attached).  The remaining
fields of the C struct are not read by the functions embedded here. -/
structure sr_commit_t where
  auth_fingerprint : List Nat
  encoded_reveal : List Nat
  deriving DecidableEq, Repr

/-- `sr_phase_t`. -/
inductive sr_phase_t
  | commit
  | reveal
  deriving DecidableEq, Repr

/-- The fields of the draft `sr_state_t` read by the SRV computation.
`commitments` lists the values of the `digest256map` in iteration
order. -/
structure sr_state_t where
  phase : sr_phase_t
  commitments : List sr_commit_t
  previous_srv : Option sr_srv_t
  current_srv : Option sr_srv_t
  deriving DecidableEq, Repr

/-- `SR_SRV_TOKEN`: the ASCII bytes of `"shared-random"`. -/
def SR_SRV_TOKEN : List Nat :=
  [115, 104, 97, 114, 101, 100, 45, 114, 97, 110, 100, 111, 109]

/-- The ASCII bytes of the disaster invariant `"shared-random-disaster"`. -/
def SR_DISASTER_TOKEN : List Nat :=
  SR_SRV_TOKEN ++ [45, 100, 105, 115, 97, 115, 116, 101, 114]

/-- `SR_PROTO_VERSION`. -/
def SR_PROTO_VERSION : Nat := 1

/-- Copy semantics of a fixed 32-byte C buffer: truncate or zero-pad. -/
def padTo32 (v : List Nat) : List Nat := (v ++ List.replicate 32 0).take 32

/-- `strcmp(a, b) <= 0` on NUL-free byte strings: lexicographic order
where a strict prefix is smaller. -/
def strLe : List Nat → List Nat → Bool
  | c₁ :: r₁, c₂ :: r₂ => if c₁ < c₂ then true else if c₂ < c₁ then false else strLe r₁ r₂
  | [], _ => true
  | _, _ => false

/-- `get_srv_element_from_commit`: the authority fingerprint concatenated
with its encoded reveal value (`tor_asprintf("%s%s", ...)`). -/
def get_srv_element_from_commit (c : sr_commit_t) : List Nat :=
  c.auth_fingerprint ++ c.encoded_reveal

/-- `compare_commit_identity_`, the `smartlist_sort` comparator: `strcmp`
on the authority fingerprints.  `smartlist_sort` is modelled as an
insertion sort by this comparator (the keys are distinct in every
reachable state, so any comparison sort yields the same list). -/
def sort_commits (l : List sr_commit_t) : List sr_commit_t :=
  List.insertionSort (fun a b => strLe a.auth_fingerprint b.auth_fingerprint = true) l

/-- `generate_srv`: build the 47-byte message
`"shared-random" | INT_8(reveal_num) | INT_8(version) | previous_SRV`
(zero-filled when there is no previous SRV) and HMAC it under the hashed
reveals.  `tor_assert(reveal_num >= 3)` is modelled as `none`.  The
message buffer length `SR_SRV_HMAC_MSG_LEN` is the header's
`SR_SRV_TOKEN_LEN + 1 + 1 + DIGEST256_LEN = 47`. -/
def generate_srv (prev : Option sr_srv_t) (hashed_reveals : List Nat)
    (reveal_num : Nat) : Option sr_srv_t :=
  if reveal_num < 3 then none
  else
    let msg := SR_SRV_TOKEN ++ [reveal_num % 256] ++ [SR_PROTO_VERSION] ++
      (match prev with
       | some p => padTo32 p.value
       | none => List.replicate 32 0)
    some { status := .fresh, value := hmacSha256 hashed_reveals msg }

/-- `generate_srv_disaster`:
`HMAC(previous_SRV, "shared-random-disaster")`.  The C function reads
`sr_state->previous_srv->value` unconditionally; when `previous_srv` is
NULL that is a NULL-pointer dereference, modelled as `none`. -/
def generate_srv_disaster (prev : Option sr_srv_t) : Option sr_srv_t :=
  match prev with
  | none => none
  | some p => some { status := .nonfresh,
                     value := hmacSha256 (padTo32 p.value) SR_DISASTER_TOKEN }

/-- `compute_shared_random_value` of the draft revision.  `reveal_num` is
`digest256map_size(sr_state->commitments)` — the number of *commits* in
the state, whether or not a reveal was attached to them.  The reveal
buffer is hashed with `crypto_digest256(..., DIGEST_SHA256)`, i.e. with
SHA-256 (not SHA3-256).  Returns the updated state, or `none` on an
assertion failure or NULL dereference. -/
def compute_shared_random_value (st : sr_state_t) : Option sr_state_t :=
  if st.phase ≠ .reveal then none
  else
    let reveal_num := st.commitments.length
    if ¬ reveal_num < 255 then none
    else if reveal_num = 0 then some st
    else if reveal_num < 3 then
      match generate_srv_disaster st.previous_srv with
      | none => none
      | some srv => some { st with current_srv := some srv }
    else
      let commits := sort_commits st.commitments
      let reveals := (commits.map get_srv_element_from_commit).flatten
      let hashed_reveals := sha256 reveals
      match generate_srv st.previous_srv hashed_reveals (reveal_num % 256) with
      | none => none
      | some srv => some { st with current_srv := some srv }

/-- The SRV value that claim C1 predicts for a state, written from the
claim's words: sort the commits ascending by the authority's Ed25519
base64 fingerprint, concatenate `auth_fingerprint || encoded_reveal`
into `R`, let `hashed_reveals = SHA3-256(R)`, build
`M = "shared-random" || u8(|C|) || u8(PROTO_VERSION) || (previous value
or 32 zero bytes)` and return `HMAC-SHA256(key=hashed_reveals, msg=M)`. -/
def claimC1_srv_value (st : sr_state_t) : List Nat :=
  let R := ((sort_commits st.commitments).map
    (fun c => c.auth_fingerprint ++ c.encoded_reveal)).flatten
  let M := SR_SRV_TOKEN ++ [st.commitments.length % 256] ++ [SR_PROTO_VERSION] ++
    (match st.previous_srv with
     | some p => padTo32 p.value
     | none => List.replicate 32 0)
  hmacSha256 (sha3_256 R) M

/-- The SRV value claim C1 predicts, amended only as the code forces:
`hashed_reveals` is computed with SHA-256 instead of SHA3-256. -/
def amendedC1_srv_value (st : sr_state_t) : List Nat :=
  let R := ((sort_commits st.commitments).map
    (fun c => c.auth_fingerprint ++ c.encoded_reveal)).flatten
  let M := SR_SRV_TOKEN ++ [st.commitments.length % 256] ++ [SR_PROTO_VERSION] ++
    (match st.previous_srv with
     | some p => padTo32 p.value
     | none => List.replicate 32 0)
  hmacSha256 (sha256 R) M

end Draft

end Tor

namespace Tor

namespace Merged

/-!
## Merged shared-random revision: vote/state line parsers and state layer

This namespace embeds the merged revision of `shared-random.c` (the one
without `Conflict` lines, whose `sr_srv_t` carries `num_reveals`), and
`shared-random-state.c`.

`tor_parse_long`, `base16_decode` and `base64_decode` live in the
utility/crypto layer outside this repository's sources; they are
modelled here from their standard, documented semantics (`strtol` with
whole-token consumption and range check; hexadecimal and base64
decoding).
-/

/-- Outcome of a C routine that can fail with an error return or abort
on a `tor_assert`. -/
inductive CResult (α : Type) where
  | crash
  | err
  | ok (val : α)
  deriving DecidableEq, Repr

/-- ASCII whitespace recognised by `strtol`/`isspace`. -/
def isSpaceByte (c : Nat) : Bool := c = 32 || (9 ≤ c && c ≤ 13)

/-- ASCII decimal digit. -/
def isDigitByte (c : Nat) : Bool := 48 ≤ c && c ≤ 57

/-- Value of a decimal digit string. -/
def digitsVal (l : List Nat) : Nat := l.foldl (fun a c => a * 10 + (c - 48)) 0

/-- `tor_parse_long(s, 10, minV, maxV, &ok, NULL)`: `strtol` semantics
(optional leading whitespace, optional sign, at least one digit), `ok`
only when the whole token is consumed and the value lies in
`[minV, maxV]`.  Returns `none` exactly when the C routine clears
`ok`. -/
def tor_parse_long (s : List Nat) (minV maxV : Int) : Option Int :=
  let s1 := s.dropWhile isSpaceByte
  let signed : Bool × List Nat :=
    match s1 with
    | 45 :: r => (true, r)
    | 43 :: r => (false, r)
    | r => (false, r)
  let ds := signed.2.takeWhile isDigitByte
  let rest := signed.2.dropWhile isDigitByte
  if ds.isEmpty then none
  else if ¬ rest.isEmpty then none
  else
    let v : Int := (if signed.1 then -1 else 1) * (digitsVal ds : Int)
    if v < minV ∨ maxV < v then none else some v

/-- Value of an ASCII hexadecimal digit. -/
def hexVal (c : Nat) : Option Nat :=
  if 48 ≤ c ∧ c ≤ 57 then some (c - 48)
  else if 97 ≤ c ∧ c ≤ 102 then some (c - 87)
  else if 65 ≤ c ∧ c ≤ 70 then some (c - 55)
  else none

/-- `base16_decode` on a hex string: pairs of hex digits to bytes;
fails on an odd length or a non-hex character. -/
def base16_decode : List Nat → Option (List Nat)
  | [] => some []
  | [_] => none
  | a :: b :: rest =>
    match hexVal a, hexVal b, base16_decode rest with
    | some ha, some hb, some tl => some ((ha * 16 + hb) :: tl)
    | _, _, _ => none

/-- Value of a base64 alphabet character. -/
def b64Val (c : Nat) : Option Nat :=
  if 65 ≤ c ∧ c ≤ 90 then some (c - 65)
  else if 97 ≤ c ∧ c ≤ 122 then some (c - 71)
  else if 48 ≤ c ∧ c ≤ 57 then some (c + 4)
  else if c = 43 then some 62
  else if c = 47 then some 63
  else none

/-- Pack a list of 6-bit groups into bytes, dropping trailing bits. -/
def b64Pack : List Nat → Nat → Nat → List Nat
  | [], _, _ => []
  | v :: r, acc, nbits =>
    let acc' := acc * 64 + v
    let n' := nbits + 6
    if 8 ≤ n' then
      (acc' >>> (n' - 8)) :: b64Pack r (acc' % (2 ^ (n' - 8))) (n' - 8)
    else
      b64Pack r acc' n'

/-- `base64_decode`: strip trailing `=` padding, map the alphabet and
pack 6-bit groups; fails on a character outside the alphabet. -/
def base64_decode (s : List Nat) : Option (List Nat) :=
  let body := (s.reverse.dropWhile (· = 61)).reverse
  match body.mapM b64Val with
  | none => none
  | some vs => some (b64Pack vs 0 0)

/-- `ed25519_public_from_base64` (via `digest256_from_base64`): the
base64 string must decode to exactly 32 bytes. -/
def ed25519_public_from_base64 (s : List Nat) : Option (List Nat) :=
  match base64_decode s with
  | some d => if d.length = 32 then some d else none
  | none => none

/-- Values of `digest_algorithm_t` that the SR code can meet. -/
inductive digest_algorithm_t where
  | sha256
  | sha512
  | sha3_256
  | sha3_512
  deriving DecidableEq, Repr

/-- `crypto_digest_algorithm_parse_name`, restricted to the names the SR
code can meet. -/
def crypto_digest_algorithm_parse_name (s : List Nat) : Option digest_algorithm_t :=
  if s = [115, 104, 97, 50, 53, 54] then some .sha256                     -- "sha256"
  else if s = [115, 104, 97, 53, 49, 50] then some .sha512               -- "sha512"
  else if s = [115, 104, 97, 51, 45, 50, 53, 54] then some .sha3_256     -- "sha3-256"
  else if s = [115, 104, 97, 51, 45, 53, 49, 50] then some .sha3_512     -- "sha3-512"
  else none

/-- The merged revision's `sr_srv_t`: reveal count plus 32-byte value. -/
structure sr_srv_t where
  num_reveals : Int
  value : List Nat
  deriving DecidableEq, Repr

/-- The merged revision's `sr_commit_t` (fields in header order; the
`auth_identity` keypair is kept as its raw 32 public-key bytes). -/
structure sr_commit_t where
  alg : digest_algorithm_t
  auth_identity : List Nat
  rsa_identity_fpr : List Nat
  reveal_ts : Int
  hashed_reveal : List Nat
  encoded_commit : List Nat
  commit_ts : Int
  random_number : List Nat
  encoded_reveal : List Nat
  deriving DecidableEq, Repr

/-- `commit_new`: blank commit owned by `identity`/`rsa_identity_fpr`,
with the default digest algorithm (`SR_DIGEST_ALG = SHA3-256`).
`strlcpy` truncates the fingerprint to `FINGERPRINT_LEN = 40` bytes. -/
def commit_new (identity rsa_identity_fpr : List Nat) : sr_commit_t :=
  { alg := .sha3_256
    auth_identity := identity
    rsa_identity_fpr := rsa_identity_fpr.take 40
    reveal_ts := 0, hashed_reveal := [], encoded_commit := []
    commit_ts := 0, random_number := [], encoded_reveal := [] }

/-- Big-endian value of a byte list (`tor_ntohll ∘ get_uint64` on the
first 8 bytes where used). -/
def beVal (l : List Nat) : Nat := l.foldl (fun a b => a * 256 + b) 0

/-- `commit_decode`: base64 blob of `H(REVEAL) || TIMESTAMP`; rejects
blobs longer than `SR_COMMIT_BASE64_LEN = 56` characters, undecodable
blobs, and decodings shorter than `SR_COMMIT_LEN = 40` bytes. -/
def commit_decode (encoded : List Nat) (c : sr_commit_t) : Option sr_commit_t :=
  if encoded.length > 56 then none
  else
    match base64_decode encoded with
    | none => none
    | some d =>
      if d.length < 40 then none
      else some { c with hashed_reveal := d.take 32
                         commit_ts := (beVal ((d.drop 32).take 8) : Int)
                         encoded_commit := encoded }

/-- `reveal_decode`: base64 blob of `TIMESTAMP || RN`; bounds as for
`commit_decode` with `SR_REVEAL_BASE64_LEN = 56`, `SR_REVEAL_LEN = 40`. -/
def reveal_decode (encoded : List Nat) (c : sr_commit_t) : Option sr_commit_t :=
  if encoded.length > 56 then none
  else
    match base64_decode encoded with
    | none => none
    | some d =>
      if d.length < 40 then none
      else some { c with reveal_ts := (beVal (d.take 8) : Int)
                         random_number := (d.drop 8).take 32
                         encoded_reveal := encoded }

/-- `sr_parse_commit`: tokens `[algname, ed25519 identity, RSA
fingerprint, commit value[, reveal value]]`. -/
def sr_parse_commit (args : List (List Nat)) : Option sr_commit_t :=
  if args.length < 4 then none
  else
    match crypto_digest_algorithm_parse_name (args.getD 0 []) with
    | some .sha3_256 =>
      (match ed25519_public_from_base64 (args.getD 1 []) with
       | none => none
       | some pubkey =>
         let commit := commit_new pubkey (args.getD 2 [])
         match commit_decode (args.getD 3 []) commit with
         | none => none
         | some commit =>
           if args.length > 4 then reveal_decode (args.getD 4 []) commit
           else some commit)
    | _ => none

/-- `sr_parse_srv`: first token is `num_reveals` parsed with
`tor_parse_long(..., 0, INT32_MAX, &ok, NULL)`; the second token is fed
to `base16_decode` whose return value is *discarded*, so a bad hex
token still yields an object (its value keeps whatever the zeroed
allocation plus the partial decode left, modelled as the decode result
or zeroes).  `HEX_DIGEST256_LEN = 64` is passed as the source length,
so only a 64-character token can decode. -/
def sr_parse_srv (args : List (List Nat)) : Option sr_srv_t :=
  if args.length < 2 then none
  else
    match tor_parse_long (args.getD 0 []) 0 2147483647 with
    | none => none
    | some n =>
      let tok := args.getD 1 []
      let decoded := if tok.length = 64 then base16_decode tok else none
      some { num_reveals := n, value := decoded.getD (List.replicate 32 0) }

/-- `sr_phase_t` of the merged revision. -/
inductive sr_phase_t where
  | commit
  | reveal
  deriving DecidableEq, Repr

/-- The merged revision's in-memory `sr_state_t` (the fields the
embedded functions read; `commits` is the `digestmap` as an association
list keyed by the first `DIGEST_LEN = 20` bytes of the RSA fingerprint
buffer). -/
structure sr_state_t where
  version : Int
  valid_until : Int
  valid_after : Int
  commits : List (List Nat × sr_commit_t)
  previous_srv : Option sr_srv_t
  current_srv : Option sr_srv_t
  deriving DecidableEq, Repr

/-- `digestmap_set`: replace or append the binding for a key, returning
the previous binding. -/
def digestmap_set (m : List (List Nat × sr_commit_t)) (k : List Nat) (v : sr_commit_t) :
    Option sr_commit_t × List (List Nat × sr_commit_t) :=
  match m.lookup k with
  | some old => (some old, m.map (fun kv => if kv.1 = k then (k, v) else kv))
  | none => (none, m ++ [(k, v)])

/-- `commit_add_to_state`: `digestmap_set` keyed by the RSA fingerprint,
then `tor_assert(saved_commit == NULL)` — adding a commit when one is
already stored for that authority aborts the process. -/
def commit_add_to_state (commit : sr_commit_t) (state : sr_state_t) : CResult sr_state_t :=
  let key := commit.rsa_identity_fpr.take 20
  match digestmap_set state.commits key commit with
  | (some _, _) => .crash
  | (none, m) => .ok { state with commits := m }

/-- `sr_state_add_commit`: routes the commit through the `state_query`
`PUT` path, which calls `commit_add_to_state` (and then syncs the disk
state, which does not change the in-memory state). -/
def sr_state_add_commit (commit : sr_commit_t) (state : sr_state_t) : CResult sr_state_t :=
  commit_add_to_state commit state

/-- Key of a `SharedRand*Value` line in the disk state. -/
inductive srv_line_key where
  | previous
  | current
  deriving DecidableEq, Repr

/-- The populated `sr_disk_state_t` after the generic config layer has
split the file: scalar fields plus the `Commit` and `SharedRand*Value`
lines, each line already whitespace-tokenised
(`smartlist_split_string` with `SPLIT_SKIP_SPACE|SPLIT_IGNORE_BLANK`). -/
structure sr_disk_state_t where
  Version : Int
  ValidAfter : Int
  ValidUntil : Int
  Commits : List (List (List Nat))
  SharedRandValues : List (srv_line_key × List (List Nat))
  deriving DecidableEq, Repr

/-- `disk_state_validate`: version above `SR_PROTO_VERSION`, expired
`ValidUntil`, or `ValidAfter ≥ ValidUntil` make the state unusable. -/
def disk_state_validate (state : sr_disk_state_t) (now : Int) : Bool :=
  ¬ (state.Version > 1 ∨ state.ValidUntil < now ∨ state.ValidAfter ≥ state.ValidUntil)

/-- `disk_state_parse_commits`: each `Commit` line must have at least 3
tokens and parse with `sr_parse_commit`; parsed commits are added with
`commit_add_to_state` (which aborts on a duplicate fingerprint). -/
def disk_state_parse_commits (state : sr_state_t) :
    List (List (List Nat)) → CResult sr_state_t
  | [] => .ok state
  | line :: rest =>
    if line.length < 3 then .err
    else
      match sr_parse_commit line with
      | none => .err
      | some commit =>
        match commit_add_to_state commit state with
        | .crash => .crash
        | .err => .err
        | .ok st' => disk_state_parse_commits st' rest

/-- `disk_state_parse_srv` + `disk_state_parse_sr_values`: each line
needs at least two tokens and a parsable `sr_parse_srv`; the result is
stored in the previous or current slot according to the line key. -/
def disk_state_parse_sr_values (state : sr_state_t) :
    List (srv_line_key × List (List Nat)) → CResult sr_state_t
  | [] => .ok state
  | (key, args) :: rest =>
    if args.length < 2 then .err
    else
      match sr_parse_srv args with
      | none => .err
      | some srv =>
        let st' := match key with
          | .previous => { state with previous_srv := some srv }
          | .current => { state with current_srv := some srv }
        disk_state_parse_sr_values st' rest

/-- `disk_state_parse`: start from `state_new` (here the caller passes
that fresh state, whose timing fields come from the external voting
schedule), install the scalar fields, then parse SRV lines and commit
lines. -/
def disk_state_parse (new_disk_state : sr_disk_state_t) (base : sr_state_t) :
    CResult sr_state_t :=
  let st := { base with version := new_disk_state.Version
                        valid_until := new_disk_state.ValidUntil
                        valid_after := new_disk_state.ValidAfter }
  match disk_state_parse_sr_values st new_disk_state.SharedRandValues with
  | .crash => .crash
  | .err => .err
  | .ok st' => disk_state_parse_commits st' new_disk_state.Commits

/-- `disk_state_load_from_disk_impl`: a missing or empty file is
`-ENOENT`; a file that fails `disk_state_validate` or `disk_state_parse`
is `-EINVAL`; both are mapped to `.err` here since `sr_state_init`
treats them identically.  On success the parsed state is installed. -/
def disk_state_load_from_disk_impl (file : Option sr_disk_state_t) (now : Int)
    (base : sr_state_t) : CResult sr_state_t :=
  match file with
  | none => .err
  | some disk_state =>
    if ¬ disk_state_validate disk_state now then .err
    else disk_state_parse disk_state base

/-- `sr_state_init(save_to_disk, read_from_disk)`: try to load from
disk; on `-EINVAL`/`-ENOENT` fall back to a fresh state
(`state_new`/`disk_state_new`, passed in as `fresh_state` since its
timing fields come from the external voting schedule) and, when asked,
save it to disk.  The boolean in the result records whether the fresh
state was written out.  A load that aborts on an internal assertion is
propagated as `.crash`. -/
def sr_state_init (save_to_disk read_from_disk : Bool)
    (file : Option sr_disk_state_t) (now : Int) (fresh_state : sr_state_t) :
    CResult (sr_state_t × Bool) :=
  let ret := if read_from_disk then disk_state_load_from_disk_impl file now fresh_state
             else .err
  match ret with
  | .crash => .crash
  | .err => .ok (fresh_state, save_to_disk)
  | .ok loaded => .ok (loaded, false)

end Merged

end Tor

namespace Tor

/-!
## Trunnel codec for ESTABLISH_INTRO / INTRO_ESTABLISHED
(`cell_establish_intro.c`, generated by Trunnel)

A parse returns the decoded object together with the *unconsumed suffix*
of the input (the C function returns `len_in - remaining`, which is the
same information).  The C error codes are `-1` (`fail`, an invalid
value, here `.invalid`) and `-2` (`truncated`, here `.truncated`).
-/

/-- Error result of a trunnel parse: `-2` for truncated input, `-1` for
an invalid value. -/
inductive TrunnelErr where
  | truncated
  | invalid
  deriving DecidableEq, Repr

/-- Modelled from the spec: the `cell_extension` sub-codec lives in
`cell_common.c`, which is not among the sources; the design document
only lists the field `extensions : cell_extension` (§4.A).  It is
modelled as the minimal structure of that era: a single `u8` count of
extensions (none are defined, so nothing follows it). -/
structure cell_extension_t where
  num : Nat
  deriving DecidableEq, Repr

/-- Modelled from the spec: parse of a `cell_extension` — one `u8`;
shorter input is truncated. -/
def cell_extension_parse : List Nat → Except TrunnelErr (cell_extension_t × List Nat)
  | [] => .error .truncated
  | n :: rest => .ok (⟨n⟩, rest)

/-- Modelled from the spec: encode of a `cell_extension`. -/
def cell_extension_encode (e : cell_extension_t) : List Nat := [e.num]

/-- Decidable equality for `Except` results, so concrete parses can be
checked by `decide`. -/
instance {e a : Type} [DecidableEq e] [DecidableEq a] : DecidableEq (Except e a) := fun x y =>
  match x, y with
  | .error v, .error w =>
    if h : v = w then isTrue (congrArg Except.error h) else isFalse (by simp [h])
  | .ok v, .ok w =>
    if h : v = w then isTrue (congrArg Except.ok h) else isFalse (by simp [h])
  | .error _, .ok _ => isFalse (by simp)
  | .ok _, .error _ => isFalse (by simp)

/-- `hs_cell_establish_intro_t`: the wire fields plus the offsets the
parser records into the buffer it read (`start_mac_data` is byte 0;
`end_mac_data` points just after the extensions; `end_sig_fields` just
after `sig_len`). -/
structure hs_cell_establish_intro_t where
  auth_key_type : Nat
  auth_key_len : Nat
  auth_key : List Nat
  extensions : cell_extension_t
  handshake_mac : List Nat
  sig_len : Nat
  sig : List Nat
  start_mac_data : Nat
  end_mac_data : Nat
  end_sig_fields : Nat
  deriving DecidableEq, Repr

/-- `hs_cell_establish_intro_parse_into`: reads `auth_key_type` (must be
0, 1 or 2, else `fail`/`-1`), `auth_key_len` (u16 big-endian),
`auth_key`, the extensions, the 32-byte `handshake_mac`, `sig_len` and
`sig`; any missing bytes give `truncated`/`-2`.  Returns the cell and
the unconsumed suffix. -/
def hs_cell_establish_intro_parse_into (input : List Nat) :
    Except TrunnelErr (hs_cell_establish_intro_t × List Nat) :=
  match input with
  | [] => .error .truncated
  | t :: r1 =>
    if ¬ (t = 0 ∨ t = 1 ∨ t = 2) then .error .invalid
    else
      match r1 with
      | a :: b :: r2 =>
        let kl := a * 256 + b
        if r2.length < kl then .error .truncated
        else
          match cell_extension_parse (r2.drop kl) with
          | .error e => .error e
          | .ok (ext, r4) =>
            if r4.length < 32 then .error .truncated
            else
              match r4.drop 32 with
              | c :: d :: r6 =>
                let sl := c * 256 + d
                if r6.length < sl then .error .truncated
                else
                  .ok ({ auth_key_type := t, auth_key_len := kl,
                         auth_key := r2.take kl, extensions := ext,
                         handshake_mac := r4.take 32, sig_len := sl,
                         sig := r6.take sl,
                         start_mac_data := 0,
                         end_mac_data := 3 + kl + 1,
                         end_sig_fields := 3 + kl + 1 + 32 + 2 }, r6.drop sl)
              | _ => .error .truncated
      | _ => .error .truncated

/-- `hs_cell_establish_intro_check`: the tag must be in range and the
dynamic arrays must match their recorded lengths (the extension check
never fails). -/
def hs_cell_establish_intro_check (obj : hs_cell_establish_intro_t) : Bool :=
  (obj.auth_key_type = 0 ∨ obj.auth_key_type = 1 ∨ obj.auth_key_type = 2) ∧
    obj.auth_key.length = obj.auth_key_len ∧ obj.sig.length = obj.sig_len

/-- Big-endian u16 bytes, as `trunnel_set_uint16 ∘ trunnel_htons`
writes them. -/
def u16be (n : Nat) : List Nat := [n / 256 % 256, n % 256]

/-- `hs_cell_establish_intro_encode` into an unbounded buffer: `none`
models the check failure (`-1`); the buffer-too-small branch cannot
occur. -/
def hs_cell_establish_intro_encode (obj : hs_cell_establish_intro_t) :
    Option (List Nat) :=
  if ¬ hs_cell_establish_intro_check obj then none
  else
    some ([obj.auth_key_type] ++ u16be obj.auth_key_len ++ obj.auth_key ++
      cell_extension_encode obj.extensions ++
      (obj.handshake_mac ++ List.replicate 32 0).take 32 ++
      u16be obj.sig_len ++ obj.sig)

/-- `hs_cell_intro_established_t`: extensions only. -/
structure hs_cell_intro_established_t where
  extensions : cell_extension_t
  deriving DecidableEq, Repr

/-- `hs_cell_intro_established_parse_into`. -/
def hs_cell_intro_established_parse_into (input : List Nat) :
    Except TrunnelErr (hs_cell_intro_established_t × List Nat) :=
  match cell_extension_parse input with
  | .error e => .error e
  | .ok (ext, rest) => .ok (⟨ext⟩, rest)

/-- `hs_cell_intro_established_encode` (its check never fails). -/
def hs_cell_intro_established_encode (obj : hs_cell_intro_established_t) : List Nat :=
  cell_extension_encode obj.extensions

/-!
## Service-side introduction circuits (`hs_circuit.c`)

State of one service descriptor's introduction circuits.  Every launched
intro circuit is registered in the circuit map
(`hs_circuitmap_register_intro_circ_*_service_side`) keyed by its intro
point's authentication key; `count_opened_desc_intro_point_circuits`
walks the descriptor's intro points and counts the mapped circuits that
are open and not marked for close (it asserts that every mapped circuit
has purpose `S_ESTABLISH_INTRO` or `S_INTRO`).
-/

/-- The circuit purposes this model distinguishes. -/
inductive circuit_purpose_t where
  | s_establish_intro
  | s_intro
  | c_general
  | other
  deriving DecidableEq, Repr

/-- One origin circuit of the service: its intro point's auth key, its
purpose, whether it has reached `CIRCUIT_STATE_OPEN`, whether it is
marked for close, and whether it is registered in the circuit map. -/
structure hs_circuit_t where
  auth_key : Nat
  purpose : circuit_purpose_t
  state_open : Bool
  marked_for_close : Bool
  in_circuitmap : Bool
  deriving DecidableEq, Repr

/-- Per-descriptor service state: the configured `num_intro_points` and
the circuits. -/
structure hs_service_circ_state_t where
  num_intro_points : Nat
  circuits : List hs_circuit_t
  deriving DecidableEq, Repr

/-- `count_opened_desc_intro_point_circuits`: the number of circuits
reachable through the circuit map that are open and not marked for
close. -/
def count_opened_desc_intro_point_circuits (s : hs_service_circ_state_t) : Nat :=
  s.circuits.countP (fun c => c.in_circuitmap && c.state_open && !c.marked_for_close)

/-- Predicate: this is the registered circuit the opened event is
about. -/
def circ_matches (k : Nat) (c : hs_circuit_t) : Bool :=
  c.auth_key = k && c.in_circuitmap

/-- A circuit-opened event for the intro circuit registered under key
`k`, followed by `hs_circ_service_intro_has_opened`: the circuit
reaches `CIRCUIT_STATE_OPEN`; if the count of opened intro circuits now
exceeds `num_intro_points`, the circuit is removed from the circuit map
and repurposed to `CIRCUIT_PURPOSE_C_GENERAL` — it is *not* marked for
close; otherwise the `ESTABLISH_INTRO` cell is sent and nothing else
changes. -/
def intro_circ_opened_event (s : hs_service_circ_state_t) (k : Nat) :
    hs_service_circ_state_t :=
  let opened := s.circuits.map (fun c =>
    if circ_matches k c then { c with state_open := true } else c)
  let s1 : hs_service_circ_state_t := { s with circuits := opened }
  if count_opened_desc_intro_point_circuits s1 > s.num_intro_points then
    { s with circuits := opened.map (fun c =>
        if circ_matches k c then
          { c with purpose := .c_general, in_circuitmap := false } else c) }
  else s1

/-- A whole sequence of intro-circuit-opened events. -/
def run_intro_events (s : hs_service_circ_state_t) (evs : List Nat) :
    hs_service_circ_state_t :=
  evs.foldl intro_circ_opened_event s

/-!
## INTRODUCE2 handling (`hs_circ_handle_introduce2`)
-/

/-- The fields of `hs_service_intro_point_t` the INTRODUCE2 path reads:
the accepted-cell counter, its cap, and the replay cache over encrypted
cell portions. -/
structure hs_service_intro_point_t where
  introduce2_count : Nat
  introduce2_max : Nat
  replay_cache : List (List Nat)
  deriving DecidableEq, Repr

/-- Modelled from the spec: the INTRODUCE2 cell as `hs_cell_parse_introduce2`
sees it — whether the cell is well-formed/decryptable for this intro
point, and its encrypted portion (the replay-cache key). -/
structure introduce2_cell_t where
  valid : Bool
  encrypted : List Nat
  deriving DecidableEq, Repr

/-- Modelled from the spec: `hs_cell_parse_introduce2` lives in
`hs_cells.c`, which is not among the sources.  Per the design document,
a malformed cell is rejected and the replay cache over the encrypted
portion drops duplicates; an accepted cell's encrypted portion is
recorded in the cache. -/
def hs_cell_parse_introduce2 (ip : hs_service_intro_point_t)
    (cell : introduce2_cell_t) : Option hs_service_intro_point_t :=
  if ¬ cell.valid then none
  else if cell.encrypted ∈ ip.replay_cache then none
  else some { ip with replay_cache := cell.encrypted :: ip.replay_cache }

/-- `hs_circ_handle_introduce2`: on a parse/replay failure return `-1`
with the intro point unchanged; otherwise increment `introduce2_count`
and launch the rendezvous circuit (modelled as succeeding; a launch
failure would not undo the increment). -/
def hs_circ_handle_introduce2 (ip : hs_service_intro_point_t)
    (cell : introduce2_cell_t) : hs_service_intro_point_t × Int :=
  match hs_cell_parse_introduce2 ip cell with
  | none => (ip, -1)
  | some ip1 => ({ ip1 with introduce2_count := ip1.introduce2_count + 1 }, 0)

end Tor


namespace Tor

namespace Merged

/-- Structural well-formedness of a `Commit` disk line, exactly the
checks `disk_state_parse_commits` applies to one line. -/
def commit_line_ok (line : List (List Nat)) : Bool :=
  if line.length < 3 then false else (sr_parse_commit line).isSome

/-- Structural well-formedness of a `SharedRand*Value` disk line,
exactly the checks `disk_state_parse_sr_values` applies to one line. -/
def srv_line_ok (args : List (List Nat)) : Bool :=
  if args.length < 2 then false else (sr_parse_srv args).isSome

/-- Keys of the commits parsed from `Commit` disk lines. -/
def parsed_commit_keys (lines : List (List (List Nat))) : List (List Nat) :=
  lines.filterMap (fun l => (sr_parse_commit l).map (fun c => c.rsa_identity_fpr.take 20))

end Merged

end Tor

namespace Tor

/-- C9: `sr_parse_srv` returns NULL only for fewer than two tokens or an
unparsable `num_reveals` in `[0, INT32_MAX]`; the value token is never
validated, so a non-hex second token (here `"ZZZ"`) still yields an
object. -/
theorem C9_sr_parse_srv_rejects_only_on_count_and_num_reveals :
    (∀ args : List (List Nat),
      Merged.sr_parse_srv args = none ↔
        (args.length < 2 ∨ Merged.tor_parse_long (args.getD 0 []) 0 2147483647 = none))
    ∧ Merged.sr_parse_srv [[50], [90, 90, 90]] ≠ none := by
  constructor
  · intro args
    by_cases h : args.length < 2
    · simp [Merged.sr_parse_srv, h]
    · simp only [Merged.sr_parse_srv, if_neg h]
      cases htp : Merged.tor_parse_long (args.getD 0 []) 0 2147483647 <;> simp [h]
  · decide

/-- C7 (amended): the state layer is not idempotent on duplicates —
`commit_add_to_state` asserts that no commit is already stored for the
authority, so adding a commit whose RSA fingerprint is already bound in
the state aborts the process; only when the fingerprint is absent is
the commit appended. -/
theorem C7_sr_state_add_commit_duplicate_asserts :
    (∀ (st : Merged.sr_state_t) (c : Merged.sr_commit_t),
        (st.commits.lookup (c.rsa_identity_fpr.take 20)).isSome →
        Merged.sr_state_add_commit c st = .crash)
    ∧ (∀ (st : Merged.sr_state_t) (c : Merged.sr_commit_t),
        st.commits.lookup (c.rsa_identity_fpr.take 20) = none →
        Merged.sr_state_add_commit c st =
          .ok { st with commits := st.commits ++ [(c.rsa_identity_fpr.take 20, c)] }) := by
  constructor
  · intro st c h
    cases hlk : st.commits.lookup (c.rsa_identity_fpr.take 20) with
    | none => rw [hlk] at h; simp at h
    | some old =>
      simp only [Merged.sr_state_add_commit, Merged.commit_add_to_state,
        Merged.digestmap_set, hlk]
  · intro st c h
    simp only [Merged.sr_state_add_commit, Merged.commit_add_to_state,
      Merged.digestmap_set, h]

/-- Witness for C7's amended theorem at a concrete state and commit. -/
theorem C7_sr_state_add_commit_duplicate_asserts_witness :
    Merged.sr_state_add_commit
        ⟨.sha3_256, List.replicate 32 1, List.replicate 40 65, 0, [], [], 0, [], []⟩
        ⟨1, 0, 0, [(List.replicate 20 65,
          ⟨.sha3_256, List.replicate 32 1, List.replicate 40 65, 0, [], [], 0, [], []⟩)],
          none, none⟩ = .crash :=
  C7_sr_state_add_commit_duplicate_asserts.1 _ _ (by decide)

/-- Counterexample to C7 as stated: re-ingesting a commit identical to
the one already stored for the same authority does not leave the state
unchanged — it trips the `tor_assert` (a fatal abort). -/
theorem C7_sr_state_add_commit_idempotence_counterexample :
    Merged.sr_state_add_commit
        ⟨.sha3_256, List.replicate 32 1, List.replicate 40 65, 0, [], [], 0, [], []⟩
        ⟨1, 0, 0, [(List.replicate 20 65,
          ⟨.sha3_256, List.replicate 32 1, List.replicate 40 65, 0, [], [], 0, [], []⟩)],
          none, none⟩ = .crash
    ∧ Merged.sr_state_add_commit
        ⟨.sha3_256, List.replicate 32 1, List.replicate 40 65, 0, [], [], 0, [], []⟩
        ⟨1, 0, 0, [(List.replicate 20 65,
          ⟨.sha3_256, List.replicate 32 1, List.replicate 40 65, 0, [], [], 0, [], []⟩)],
          none, none⟩ ≠
      .ok ⟨1, 0, 0, [(List.replicate 20 65,
          ⟨.sha3_256, List.replicate 32 1, List.replicate 40 65, 0, [], [], 0, [], []⟩)],
          none, none⟩ := by
  constructor
  · decide
  · decide

/-- C8: a valid, previously unseen INTRODUCE2 cell increments
`introduce2_count` once; replaying the same cell is caught by the
replay cache over its encrypted portion and dropped (`-1`) without a
second increment. -/
theorem C8_introduce2_replay_increments_once
    (ip : hs_service_intro_point_t) (cell : introduce2_cell_t)
    (hvalid : cell.valid = true) (hfresh : cell.encrypted ∉ ip.replay_cache) :
    (hs_circ_handle_introduce2 ip cell).1.introduce2_count = ip.introduce2_count + 1
    ∧ (hs_circ_handle_introduce2 (hs_circ_handle_introduce2 ip cell).1 cell).1.introduce2_count
        = ip.introduce2_count + 1
    ∧ (hs_circ_handle_introduce2 (hs_circ_handle_introduce2 ip cell).1 cell).2 = -1 := by
  simp [hs_circ_handle_introduce2, hs_cell_parse_introduce2, hvalid, hfresh]

/-- Witness for C8 at a concrete intro point and cell. -/
theorem C8_introduce2_replay_increments_once_witness :
    (hs_circ_handle_introduce2 ⟨0, 5, []⟩ ⟨true, [1, 2]⟩).1.introduce2_count = 0 + 1
    ∧ (hs_circ_handle_introduce2
        (hs_circ_handle_introduce2 ⟨0, 5, []⟩ ⟨true, [1, 2]⟩).1
        ⟨true, [1, 2]⟩).1.introduce2_count = 0 + 1
    ∧ (hs_circ_handle_introduce2
        (hs_circ_handle_introduce2 ⟨0, 5, []⟩ ⟨true, [1, 2]⟩).1
        ⟨true, [1, 2]⟩).2 = -1 :=
  C8_introduce2_replay_increments_once ⟨0, 5, []⟩ ⟨true, [1, 2]⟩ (by decide) (by decide)

/-- C10: `generate_srv_disaster` reads `previous_srv->value`
unconditionally, so reaching the disaster branch (at least one commit,
fewer than three) with no previous SRV dereferences NULL (modelled as
`none`) instead of substituting 32 zero bytes; with a previous SRV the
branch computes `HMAC-SHA256(previous value, "shared-random-disaster")`. -/
theorem C10_generate_srv_disaster_requires_previous_srv :
    (∀ st : Draft.sr_state_t, st.phase = .reveal → st.previous_srv = none →
        1 ≤ st.commitments.length → st.commitments.length < 3 →
        Draft.compute_shared_random_value st = none)
    ∧ (∀ (st : Draft.sr_state_t) (p : Draft.sr_srv_t), st.phase = .reveal →
        st.previous_srv = some p →
        1 ≤ st.commitments.length → st.commitments.length < 3 →
        Draft.compute_shared_random_value st =
          some { st with current_srv := some ⟨.nonfresh,
            hmacSha256 (Draft.padTo32 p.value) Draft.SR_DISASTER_TOKEN⟩ }) := by
  constructor
  · intro st hphase hprev h1 h3
    unfold Draft.compute_shared_random_value Draft.generate_srv_disaster
    rw [hphase, hprev]
    rw [if_neg (by simp), if_neg (by omega), if_neg (by omega), if_pos (by omega)]
  · intro st p hphase hprev h1 h3
    unfold Draft.compute_shared_random_value Draft.generate_srv_disaster
    rw [hphase, hprev]
    rw [if_neg (by simp), if_neg (by omega), if_neg (by omega), if_pos (by omega)]

/-- Witness for C10 at concrete one-commit states, with and without a
previous SRV. -/
theorem C10_generate_srv_disaster_requires_previous_srv_witness :
    Draft.compute_shared_random_value ⟨.reveal, [⟨[65], [97]⟩], none, none⟩ = none
    ∧ Draft.compute_shared_random_value
        ⟨.reveal, [⟨[65], [97]⟩], some ⟨.fresh, List.replicate 32 3⟩, none⟩ =
      some ⟨.reveal, [⟨[65], [97]⟩], some ⟨.fresh, List.replicate 32 3⟩,
        some ⟨.nonfresh, hmacSha256 (Draft.padTo32 (List.replicate 32 3))
          Draft.SR_DISASTER_TOKEN⟩⟩ :=
  ⟨C10_generate_srv_disaster_requires_previous_srv.1 _ (by decide) (by decide)
      (by decide) (by decide),
   C10_generate_srv_disaster_requires_previous_srv.2
      ⟨.reveal, [⟨[65], [97]⟩], some ⟨.fresh, List.replicate 32 3⟩, none⟩
      ⟨.fresh, List.replicate 32 3⟩ rfl rfl (by decide) (by decide)⟩

/-- C1 (amended): at the end of the reveal phase with at least 3 and
fewer than 255 stored commits, the engine sorts the stored commits by
the authority's Ed25519 base64 fingerprint, concatenates
`auth_fingerprint || encoded_reveal` into `R`, computes
`hashed_reveals = SHA-256(R)` (the code passes `DIGEST_SHA256`, not
SHA3-256), builds `M = "shared-random" || u8(n) || u8(PROTO_VERSION) ||
(previous value or 32 zero bytes)` and installs a fresh SRV with value
`HMAC-SHA256(key=hashed_reveals, msg=M)` (this revision's SRV object
records a fresh/non-fresh status, not a `num_reveals` count). -/
theorem C1_srv_computation_amended (st : Draft.sr_state_t)
    (hphase : st.phase = .reveal)
    (h3 : 3 ≤ st.commitments.length)
    (h255 : st.commitments.length < 255) :
    Draft.compute_shared_random_value st =
      some { st with current_srv := some ⟨.fresh, Draft.amendedC1_srv_value st⟩ } := by
  have hmod : st.commitments.length % 256 = st.commitments.length :=
    Nat.mod_eq_of_lt (by omega)
  unfold Draft.compute_shared_random_value Draft.generate_srv Draft.amendedC1_srv_value
  rw [hphase]
  simp only [hmod, Draft.get_srv_element_from_commit]
  rw [if_neg (by simp), if_neg (by omega), if_neg (by omega), if_neg (by omega),
      if_neg (by omega)]
  rfl

/-- Witness for C1's amended theorem at a concrete three-commit state. -/
theorem C1_srv_computation_amended_witness :
    Draft.compute_shared_random_value
        ⟨.reveal, [⟨[66], [98]⟩, ⟨[65], [97]⟩, ⟨[67], [99]⟩], none, none⟩ =
      some ⟨.reveal, [⟨[66], [98]⟩, ⟨[65], [97]⟩, ⟨[67], [99]⟩], none,
        some ⟨.fresh, Draft.amendedC1_srv_value
          ⟨.reveal, [⟨[66], [98]⟩, ⟨[65], [97]⟩, ⟨[67], [99]⟩], none, none⟩⟩⟩ :=
  C1_srv_computation_amended _ (by decide) (by decide) (by decide)

/-- Counterexample to C1 as stated: on a concrete reveal-phase state
with three commits (each carrying its reveal), the SRV the code
installs differs from the claim's prediction, because the code hashes
the reveal buffer with SHA-256 while the claim says SHA3-256. -/
theorem C1_srv_computation_counterexample :
    ((Draft.compute_shared_random_value
        ⟨.reveal, [⟨[66], [98]⟩, ⟨[65], [97]⟩, ⟨[67], [99]⟩], none, none⟩).bind
      fun s => Option.map Draft.sr_srv_t.value s.current_srv) =
      some (Draft.amendedC1_srv_value
        ⟨.reveal, [⟨[66], [98]⟩, ⟨[65], [97]⟩, ⟨[67], [99]⟩], none, none⟩)
    ∧ Draft.amendedC1_srv_value
        ⟨.reveal, [⟨[66], [98]⟩, ⟨[65], [97]⟩, ⟨[67], [99]⟩], none, none⟩ ≠
      Draft.claimC1_srv_value
        ⟨.reveal, [⟨[66], [98]⟩, ⟨[65], [97]⟩, ⟨[67], [99]⟩], none, none⟩ := by
  constructor
  · decide
  · decide

/-- C2 evaluated at the failing input: a reveal-phase state holding
three commits none of which has a reveal (zero valid reveals), with a
previous SRV of 32 `0x11` bytes.  The code takes the normal branch: it
installs a *fresh* SRV whose value is not the disaster value
`HMAC-SHA256([0x11;32], "shared-random-disaster")` that the claim
requires whenever fewer than 3 valid reveals are available. -/
theorem C2_disaster_branch_counts_commits_not_reveals :
    (((Draft.compute_shared_random_value
        ⟨.reveal, [⟨[65], []⟩, ⟨[66], []⟩, ⟨[67], []⟩],
          some ⟨.fresh, List.replicate 32 17⟩, none⟩).bind
      fun s => s.current_srv).map Draft.sr_srv_t.status) = some .fresh
    ∧ (((Draft.compute_shared_random_value
        ⟨.reveal, [⟨[65], []⟩, ⟨[66], []⟩, ⟨[67], []⟩],
          some ⟨.fresh, List.replicate 32 17⟩, none⟩).bind
      fun s => s.current_srv).map Draft.sr_srv_t.value) ≠
      some (hmacSha256 (List.replicate 32 17) Draft.SR_DISASTER_TOKEN) := by
  constructor
  · decide
  · decide

end Tor

namespace Tor

open Merged

theorem parse_sr_values_ok (lines : List (srv_line_key × List (List Nat))) :
    ∀ st : Merged.sr_state_t, (∀ l ∈ lines, srv_line_ok l.2 = true) →
    ∃ st', disk_state_parse_sr_values st lines = .ok st' ∧ st'.commits = st.commits := by
  induction lines with
  | nil => intro st _; exact ⟨st, rfl, rfl⟩
  | cons l rest ih =>
    intro st hok
    have hl := hok l (by simp)
    unfold srv_line_ok at hl
    by_cases h2 : l.2.length < 2
    · simp [h2] at hl
    · cases hp : sr_parse_srv l.2 with
      | none => rw [hp] at hl; simp [h2] at hl
      | some srv =>
        obtain ⟨l1, l2⟩ := l
        cases l1 with
        | previous =>
          obtain ⟨st', hst', hc⟩ := ih { st with previous_srv := some srv }
            (fun x hx => hok x (by simp [hx]))
          refine ⟨st', ?_, by rw [hc]⟩
          unfold disk_state_parse_sr_values
          rw [if_neg h2, hp]
          exact hst'
        | current =>
          obtain ⟨st', hst', hc⟩ := ih { st with current_srv := some srv }
            (fun x hx => hok x (by simp [hx]))
          refine ⟨st', ?_, by rw [hc]⟩
          unfold disk_state_parse_sr_values
          rw [if_neg h2, hp]
          exact hst'

theorem parse_sr_values_err (lines : List (srv_line_key × List (List Nat))) :
    ∀ st : Merged.sr_state_t, (∃ l ∈ lines, srv_line_ok l.2 = false) →
    disk_state_parse_sr_values st lines = .err := by
  induction lines with
  | nil => intro st h; simp at h
  | cons l rest ih =>
    intro st h
    by_cases hl : srv_line_ok l.2 = true
    · -- head fine: the failing line is in the tail
      unfold srv_line_ok at hl
      by_cases h2 : l.2.length < 2
      · simp [h2] at hl
      · cases hp : sr_parse_srv l.2 with
        | none => rw [hp] at hl; simp [h2] at hl
        | some srv =>
          obtain ⟨bad, hbad, hbadok⟩ := h
          rcases List.mem_cons.mp hbad with rfl | hmem
          · unfold srv_line_ok at hbadok
            rw [if_neg h2, hp] at hbadok
            simp at hbadok
          · obtain ⟨l1, l2⟩ := l
            unfold disk_state_parse_sr_values
            rw [if_neg h2, hp]
            exact ih _ ⟨bad, hmem, hbadok⟩
    · -- head itself fails
      have hl' : srv_line_ok l.2 = false := by
        cases hsv : srv_line_ok l.2
        · rfl
        · exact absurd hsv hl
      unfold srv_line_ok at hl'
      by_cases h2 : l.2.length < 2
      · obtain ⟨l1, l2⟩ := l
        unfold disk_state_parse_sr_values
        rw [if_pos h2]
      · cases hp : sr_parse_srv l.2 with
        | some srv => rw [hp] at hl'; simp [h2] at hl'
        | none =>
          obtain ⟨l1, l2⟩ := l
          unfold disk_state_parse_sr_values
          rw [if_neg h2, hp]

end Tor

namespace Tor

open Merged

theorem lookup_append_none (k : List Nat) (xs ys : List (List Nat × Merged.sr_commit_t))
    (hx : List.lookup k xs = none) (hy : List.lookup k ys = none) :
    List.lookup k (xs ++ ys) = none := by
  induction xs with
  | nil => simpa using hy
  | cons p t ih =>
    obtain ⟨a, b⟩ := p
    simp only [List.lookup, List.cons_append] at hx ⊢
    cases hba : (k == a) with
    | true => rw [hba] at hx; simp at hx
    | false =>
      rw [hba] at hx
      exact ih hx

theorem commit_add_ok_of_lookup_none (c : Merged.sr_commit_t) (st : Merged.sr_state_t)
    (h : st.commits.lookup (c.rsa_identity_fpr.take 20) = none) :
    Merged.commit_add_to_state c st =
      .ok { st with commits := st.commits ++ [(c.rsa_identity_fpr.take 20, c)] } := by
  simp only [Merged.commit_add_to_state, Merged.digestmap_set, h]

theorem parse_commits_ok (lines : List (List (List Nat))) :
    ∀ st : Merged.sr_state_t, (∀ l ∈ lines, commit_line_ok l = true) →
    (parsed_commit_keys lines).Nodup →
    (∀ k ∈ parsed_commit_keys lines, st.commits.lookup k = none) →
    ∃ st', disk_state_parse_commits st lines = .ok st' := by
  induction lines with
  | nil => intro st _ _ _; exact ⟨st, rfl⟩
  | cons l rest ih =>
    intro st hok hnd hdisj
    have hl := hok l (by simp)
    unfold commit_line_ok at hl
    by_cases h3 : l.length < 3
    · simp [h3] at hl
    · cases hp : sr_parse_commit l with
      | none => rw [hp] at hl; simp [h3] at hl
      | some c =>
        have hkeys : parsed_commit_keys (l :: rest) =
            c.rsa_identity_fpr.take 20 :: parsed_commit_keys rest := by
          simp [parsed_commit_keys, hp]
        rw [hkeys] at hnd hdisj
        have hlk : st.commits.lookup (c.rsa_identity_fpr.take 20) = none :=
          hdisj _ (by simp)
        obtain ⟨st', hst'⟩ := ih
          { st with commits := st.commits ++ [(c.rsa_identity_fpr.take 20, c)] }
          (fun x hx => hok x (by simp [hx]))
          hnd.of_cons
          (by
            intro k hk
            refine lookup_append_none k _ _ (hdisj k (by simp [hk])) ?_
            have hne : k ≠ c.rsa_identity_fpr.take 20 := by
              intro heq
              exact (List.nodup_cons.mp hnd).1 (heq ▸ hk)
            simp [List.lookup, beq_eq_false_iff_ne.mpr hne])
        refine ⟨st', ?_⟩
        unfold disk_state_parse_commits
        rw [if_neg h3]
        simp only [hp, commit_add_ok_of_lookup_none c st hlk]
        exact hst'

theorem parse_commits_err (lines : List (List (List Nat))) :
    ∀ st : Merged.sr_state_t, (∃ l ∈ lines, commit_line_ok l = false) →
    (parsed_commit_keys lines).Nodup →
    (∀ k ∈ parsed_commit_keys lines, st.commits.lookup k = none) →
    disk_state_parse_commits st lines = .err := by
  induction lines with
  | nil => intro st h _ _; simp at h
  | cons l rest ih =>
    intro st h hnd hdisj
    by_cases hl : commit_line_ok l = true
    · have hl' := hl
      unfold commit_line_ok at hl'
      by_cases h3 : l.length < 3
      · simp [h3] at hl'
      · cases hp : sr_parse_commit l with
        | none => rw [hp] at hl'; simp [h3] at hl'
        | some c =>
          obtain ⟨bad, hbad, hbadok⟩ := h
          rcases List.mem_cons.mp hbad with rfl | hmem
          · rw [hl] at hbadok; simp at hbadok
          · have hkeys : parsed_commit_keys (l :: rest) =
                c.rsa_identity_fpr.take 20 :: parsed_commit_keys rest := by
              simp [parsed_commit_keys, hp]
            rw [hkeys] at hnd hdisj
            have hlk : st.commits.lookup (c.rsa_identity_fpr.take 20) = none :=
              hdisj _ (by simp)
            unfold disk_state_parse_commits
            rw [if_neg h3]
            simp only [hp, commit_add_ok_of_lookup_none c st hlk]
            refine ih _ ⟨bad, hmem, hbadok⟩ hnd.of_cons ?_
            intro k hk
            refine lookup_append_none k _ _ (hdisj k (by simp [hk])) ?_
            have hne : k ≠ c.rsa_identity_fpr.take 20 := by
              intro heq
              exact (List.nodup_cons.mp hnd).1 (heq ▸ hk)
            simp [List.lookup, beq_eq_false_iff_ne.mpr hne]
    · have hl' : commit_line_ok l = false := by
        cases hcv : commit_line_ok l
        · rfl
        · exact absurd hcv hl
      unfold commit_line_ok at hl'
      by_cases h3 : l.length < 3
      · unfold disk_state_parse_commits
        rw [if_pos h3]
      · cases hp : sr_parse_commit l with
        | some c => rw [hp] at hl'; simp [h3] at hl'
        | none =>
          unfold disk_state_parse_commits
          rw [if_neg h3, hp]

end Tor

namespace Tor

open Merged

/-- C5 (amended): on load, a persisted SR state file whose parsable
`Commit` lines carry pairwise-distinct RSA fingerprints is rejected
exactly when its version exceeds the supported protocol version, its
`valid_until` is before now, its `valid_after` is not strictly earlier
than `valid_until`, or some commit or SRV line fails the structural
checks; that rejection is non-fatal — `sr_state_init` falls back to the
fresh state (whose commit map starts empty, as `state_new` makes it)
and writes it to disk — and a missing state file gets the same fresh
state.  The distinct-fingerprint restriction is forced by the code: a
file that repeats a fingerprint across structurally valid `Commit`
lines aborts in `commit_add_to_state`'s
`tor_assert(saved_commit == NULL)` instead of falling back (see the
counterexample to the unrestricted claim). -/
theorem C5_state_file_rejection_is_nonfatal :
    (∀ (file : Merged.sr_disk_state_t) (now : Int) (fresh_state : Merged.sr_state_t),
      (parsed_commit_keys file.Commits).Nodup →
      fresh_state.commits = [] →
      ((file.Version > 1 ∨ file.ValidUntil < now ∨ file.ValidAfter ≥ file.ValidUntil
          ∨ (∃ l ∈ file.SharedRandValues, srv_line_ok l.2 = false)
          ∨ (∃ l ∈ file.Commits, commit_line_ok l = false)) ↔
        Merged.sr_state_init true true (some file) now fresh_state =
          .ok (fresh_state, true)))
    ∧ (∀ (now : Int) (fresh_state : Merged.sr_state_t),
        Merged.sr_state_init true true none now fresh_state = .ok (fresh_state, true)) := by
  have load_eq : ∀ (file : Merged.sr_disk_state_t) (now : Int)
      (fresh_state : Merged.sr_state_t),
      Merged.sr_state_init true true (some file) now fresh_state =
        match Merged.disk_state_load_from_disk_impl (some file) now fresh_state with
        | .crash => .crash
        | .err => .ok (fresh_state, true)
        | .ok loaded => .ok (loaded, false) := by
    intro file now fresh_state
    rfl
  constructor
  · intro file now fresh hnd hfc
    by_cases hv : Merged.disk_state_validate file now = true
    · -- scalar validation passes
      have hv' : ¬ (file.Version > 1 ∨ file.ValidUntil < now ∨
          file.ValidAfter ≥ file.ValidUntil) := by
        unfold Merged.disk_state_validate at hv
        simpa using of_decide_eq_true hv
      constructor
      · intro hrej
        rcases hrej with h | h | h | h | h
        · exact absurd (Or.inl h) hv'
        · exact absurd (Or.inr (Or.inl h)) hv'
        · exact absurd (Or.inr (Or.inr h)) hv'
        · -- a SharedRand*Value line fails
          rw [load_eq]
          simp only [Merged.disk_state_load_from_disk_impl, Merged.disk_state_parse]
          rw [if_neg (by simp [hv]), parse_sr_values_err _ _ h]
        · -- a Commit line fails
          by_cases hsrv : ∀ l ∈ file.SharedRandValues, srv_line_ok l.2 = true
          · obtain ⟨st1, hst1, hc1⟩ := parse_sr_values_ok file.SharedRandValues _ hsrv
            rw [load_eq]
            simp only [Merged.disk_state_load_from_disk_impl, Merged.disk_state_parse]
            rw [if_neg (by simp [hv]), hst1]
            simp only [parse_commits_err _ _ h hnd (by
                intro k _
                rw [hc1]
                simp [hfc, List.lookup])]
          · push_neg at hsrv
            obtain ⟨bad, hbad, hbadok⟩ := hsrv
            rw [load_eq]
            simp only [Merged.disk_state_load_from_disk_impl, Merged.disk_state_parse]
            rw [if_neg (by simp [hv]), parse_sr_values_err _ _ ⟨bad, hbad, by
              cases hkk : srv_line_ok bad.2
              · rfl
              · exact absurd hkk hbadok⟩]
      · intro heq
        by_contra hno
        push_neg at hno
        obtain ⟨_, _, _, hsrvok, hcok⟩ := hno
        have hsrv : ∀ l ∈ file.SharedRandValues, srv_line_ok l.2 = true := by
          intro l hl
          cases hkk : srv_line_ok l.2
          · exact absurd hkk (hsrvok l hl)
          · rfl
        have hcomm : ∀ l ∈ file.Commits, commit_line_ok l = true := by
          intro l hl
          cases hkk : commit_line_ok l
          · exact absurd hkk (hcok l hl)
          · rfl
        obtain ⟨st1, hst1, hc1⟩ := parse_sr_values_ok file.SharedRandValues
          { version := file.Version, valid_until := file.ValidUntil,
            valid_after := file.ValidAfter, commits := fresh.commits,
            previous_srv := fresh.previous_srv, current_srv := fresh.current_srv } hsrv
        obtain ⟨st2, hst2⟩ := parse_commits_ok file.Commits st1 hcomm hnd (by
          intro k _
          rw [hc1]
          simp [hfc, List.lookup])
        rw [load_eq] at heq
        simp only [Merged.disk_state_load_from_disk_impl, Merged.disk_state_parse] at heq
        rw [if_neg (by simp [hv]), hst1] at heq
        simp only [hst2] at heq
        simp at heq
    · -- scalar validation fails: some scalar condition holds
      have hv' : file.Version > 1 ∨ file.ValidUntil < now ∨
          file.ValidAfter ≥ file.ValidUntil := by
        unfold Merged.disk_state_validate at hv
        by_contra hno
        exact hv (decide_eq_true hno)
      constructor
      · intro _
        rw [load_eq]
        simp only [Merged.disk_state_load_from_disk_impl]
        rw [if_pos (by simp [hv])]
      · intro _
        tauto
  · intro now fresh
    rfl

end Tor

namespace Tor

/-- Witness for C5 at a concrete over-version file (Version 2) and a
concrete fresh state: the file is rejected and the fresh state is
installed and written. -/
theorem C5_state_file_rejection_is_nonfatal_witness :
    Merged.sr_state_init true true (some ⟨2, 0, 10, [], []⟩) 5 ⟨1, 0, 0, [], none, none⟩ =
      .ok (⟨1, 0, 0, [], none, none⟩, true) :=
  (C5_state_file_rejection_is_nonfatal.1 ⟨2, 0, 10, [], []⟩ 5 ⟨1, 0, 0, [], none, none⟩
    (by decide) (by decide)).mp (Or.inl (by decide))

/-- Counterexample to C5 as stated: the claim promises the non-fatal
fresh-state fallback for every file in which some commit line fails the
structural checks, but a file whose `Commit` lines repeat an RSA
fingerprint aborts in `commit_add_to_state`'s
`tor_assert(saved_commit == NULL)` before the bad line is reached.
Here two identical, structurally valid `Commit` lines
(`sha3-256`, a 43-character base64 Ed25519 identity decoding to 32
bytes, a 40-byte RSA fingerprint, a 54-character base64 commit blob
decoding to 40 bytes) precede a malformed line, the scalar validation
passes and the claim's rejection trigger holds, yet the load crashes
instead of installing and writing the fresh state. -/
theorem C5_state_file_rejection_counterexample :
    Merged.commit_line_ok [[120], [120], [120]] = false
    ∧ ([[120], [120], [120]] : List (List Nat)) ∈
        [[[115, 104, 97, 51, 45, 50, 53, 54], List.replicate 43 65,
          List.replicate 40 66, List.replicate 54 65],
         [[115, 104, 97, 51, 45, 50, 53, 54], List.replicate 43 65,
          List.replicate 40 66, List.replicate 54 65],
         [[120], [120], [120]]]
    ∧ Merged.sr_state_init true true
        (some ⟨1, 0, 10,
          [[[115, 104, 97, 51, 45, 50, 53, 54], List.replicate 43 65,
            List.replicate 40 66, List.replicate 54 65],
           [[115, 104, 97, 51, 45, 50, 53, 54], List.replicate 43 65,
            List.replicate 40 66, List.replicate 54 65],
           [[120], [120], [120]]], []⟩) 5 ⟨1, 0, 0, [], none, none⟩ = .crash
    ∧ Merged.sr_state_init true true
        (some ⟨1, 0, 10,
          [[[115, 104, 97, 51, 45, 50, 53, 54], List.replicate 43 65,
            List.replicate 40 66, List.replicate 54 65],
           [[115, 104, 97, 51, 45, 50, 53, 54], List.replicate 43 65,
            List.replicate 40 66, List.replicate 54 65],
           [[120], [120], [120]]], []⟩) 5 ⟨1, 0, 0, [], none, none⟩ ≠
        .ok (⟨1, 0, 0, [], none, none⟩, true) := by
  exact ⟨by decide, by decide, by decide, by decide⟩

end Tor

namespace Tor

theorem circ_matches_open_update (k : Nat) (c : hs_circuit_t) :
    circ_matches k { c with state_open := true } = circ_matches k c := by
  simp [circ_matches]

theorem intro_event_repurpose_circuits (s : hs_service_circ_state_t) (k : Nat)
    (h : count_opened_desc_intro_point_circuits
        { s with circuits := s.circuits.map (fun c =>
            if circ_matches k c then { c with state_open := true } else c) }
      > s.num_intro_points) :
    intro_circ_opened_event s k =
      { s with circuits := s.circuits.map (fun c =>
          if circ_matches k c then
            { c with state_open := true, purpose := .c_general,
                     in_circuitmap := false } else c) } := by
  unfold intro_circ_opened_event
  rw [if_pos h]
  congr 1
  rw [List.map_map]
  apply List.map_congr_left
  intro c _
  by_cases hm : circ_matches k c = true
  · simp [Function.comp_apply, hm, circ_matches_open_update]
  · simp [Function.comp_apply, hm, circ_matches_open_update]

end Tor

namespace Tor

theorem intro_event_num (s : hs_service_circ_state_t) (k : Nat) :
    (intro_circ_opened_event s k).num_intro_points = s.num_intro_points := by
  unfold intro_circ_opened_event
  dsimp only
  split <;> rfl

theorem intro_event_preserves_cap (s : hs_service_circ_state_t) (k : Nat)
    (h : count_opened_desc_intro_point_circuits s ≤ s.num_intro_points) :
    count_opened_desc_intro_point_circuits (intro_circ_opened_event s k) ≤
      (intro_circ_opened_event s k).num_intro_points := by
  rw [intro_event_num]
  by_cases hbig : count_opened_desc_intro_point_circuits
      { s with circuits := s.circuits.map (fun c =>
          if circ_matches k c then { c with state_open := true } else c) }
    > s.num_intro_points
  · rw [intro_event_repurpose_circuits s k hbig]
    calc count_opened_desc_intro_point_circuits
          { s with circuits := s.circuits.map (fun c =>
              if circ_matches k c then
                { c with state_open := true, purpose := .c_general,
                         in_circuitmap := false } else c) }
        ≤ count_opened_desc_intro_point_circuits s := by
          unfold count_opened_desc_intro_point_circuits
          rw [List.countP_map]
          apply List.countP_mono_left
          intro c _ hp
          by_cases hm : circ_matches k c = true
          · simp [hm] at hp
          · simpa [hm] using hp
      _ ≤ s.num_intro_points := h
  · unfold intro_circ_opened_event
    dsimp only
    rw [if_neg hbig]
    omega

theorem run_intro_events_cap (evs : List Nat) :
    ∀ s : hs_service_circ_state_t,
    count_opened_desc_intro_point_circuits s ≤ s.num_intro_points →
    count_opened_desc_intro_point_circuits (run_intro_events s evs) ≤
      (run_intro_events s evs).num_intro_points := by
  induction evs with
  | nil => intro s h; exact h
  | cons k rest ih =>
    intro s h
    have h1 := intro_event_preserves_cap s k h
    exact ih _ h1

end Tor

namespace Tor

/-- C6: after any sequence of service-side intro-circuit-opened events,
at most `num_intro_points` opened intro circuits are kept registered per
descriptor; and when a circuit opens while the service has more than
`num_intro_points` opened intro circuits (the just-opened one included,
as `count_opened_desc_intro_point_circuits` counts it), that circuit is
repurposed to a general circuit and removed from the circuit map — its
`marked_for_close` flag is untouched, so it is not closed. -/
theorem C6_intro_point_cap_invariant :
    (∀ (s : hs_service_circ_state_t) (evs : List Nat),
      count_opened_desc_intro_point_circuits s ≤ s.num_intro_points →
      count_opened_desc_intro_point_circuits (run_intro_events s evs) ≤
        (run_intro_events s evs).num_intro_points)
    ∧ (∀ (s : hs_service_circ_state_t) (k : Nat),
      count_opened_desc_intro_point_circuits
          { s with circuits := s.circuits.map (fun c =>
              if circ_matches k c then { c with state_open := true } else c) }
        > s.num_intro_points →
      intro_circ_opened_event s k =
        { s with circuits := s.circuits.map (fun c =>
            if circ_matches k c then
              { c with state_open := true, purpose := .c_general,
                       in_circuitmap := false } else c) }) :=
  ⟨fun s evs => run_intro_events_cap evs s, intro_event_repurpose_circuits⟩

/-- Witness for C6: a service wanting one intro point with two launched
circuits, both events applied; the cap holds, and the second opening
(counted beyond the cap) is repurposed to general and unregistered. -/
theorem C6_intro_point_cap_invariant_witness :
    (count_opened_desc_intro_point_circuits
        (run_intro_events ⟨1, [⟨7, .s_establish_intro, false, false, true⟩,
          ⟨8, .s_establish_intro, false, false, true⟩]⟩ [7, 8]) ≤
      (run_intro_events ⟨1, [⟨7, .s_establish_intro, false, false, true⟩,
          ⟨8, .s_establish_intro, false, false, true⟩]⟩ [7, 8]).num_intro_points)
    ∧ intro_circ_opened_event ⟨1, [⟨7, .s_establish_intro, true, false, true⟩,
          ⟨8, .s_establish_intro, false, false, true⟩]⟩ 8 =
        ⟨1, [⟨7, .s_establish_intro, true, false, true⟩,
          ⟨8, .c_general, true, false, false⟩]⟩ := by
  constructor
  · exact C6_intro_point_cap_invariant.1 _ [7, 8] (by decide)
  · have h := C6_intro_point_cap_invariant.2
      ⟨1, [⟨7, .s_establish_intro, true, false, true⟩,
        ⟨8, .s_establish_intro, false, false, true⟩]⟩ 8 (by decide)
    rw [h]
    decide

end Tor

namespace Tor

/-- Decomposition of a successful ESTABLISH_INTRO parse. -/
theorem est_intro_parse_ok_decomp (b : List Nat) (cell : hs_cell_establish_intro_t)
    (rest : List Nat)
    (hp : hs_cell_establish_intro_parse_into b = .ok (cell, rest)) :
    ∃ t a b2 r2 n r4 c d r6,
      b = t :: a :: b2 :: r2 ∧ (t = 0 ∨ t = 1 ∨ t = 2) ∧
      ¬ r2.length < a * 256 + b2 ∧
      r2.drop (a * 256 + b2) = n :: r4 ∧
      ¬ r4.length < 32 ∧
      r4.drop 32 = c :: d :: r6 ∧
      ¬ r6.length < c * 256 + d ∧
      cell = { auth_key_type := t, auth_key_len := a * 256 + b2,
               auth_key := r2.take (a * 256 + b2), extensions := ⟨n⟩,
               handshake_mac := r4.take 32, sig_len := c * 256 + d,
               sig := r6.take (c * 256 + d),
               start_mac_data := 0, end_mac_data := 3 + (a * 256 + b2) + 1,
               end_sig_fields := 3 + (a * 256 + b2) + 1 + 32 + 2 } ∧
      rest = r6.drop (c * 256 + d) := by
  match b with
  | [] => simp [hs_cell_establish_intro_parse_into] at hp
  | [t] =>
    simp only [hs_cell_establish_intro_parse_into] at hp
    by_cases ht : t = 0 ∨ t = 1 ∨ t = 2
    · rw [if_neg (not_not_intro ht)] at hp; simp at hp
    · rw [if_pos ht] at hp; simp at hp
  | [t, a] =>
    simp only [hs_cell_establish_intro_parse_into] at hp
    by_cases ht : t = 0 ∨ t = 1 ∨ t = 2
    · rw [if_neg (not_not_intro ht)] at hp; simp at hp
    · rw [if_pos ht] at hp; simp at hp
  | t :: a :: b2 :: r2 =>
    simp only [hs_cell_establish_intro_parse_into] at hp
    by_cases ht : t = 0 ∨ t = 1 ∨ t = 2
    case neg => rw [if_pos ht] at hp; simp at hp
    case pos =>
    rw [if_neg (not_not_intro ht)] at hp
    by_cases hkl : r2.length < a * 256 + b2
    · rw [if_pos hkl] at hp; simp at hp
    · rw [if_neg hkl] at hp
      cases hr3 : r2.drop (a * 256 + b2) with
      | nil => rw [hr3] at hp; simp [cell_extension_parse] at hp
      | cons n r4 =>
        rw [hr3] at hp
        simp only [cell_extension_parse] at hp
        by_cases h32 : r4.length < 32
        · rw [if_pos h32] at hp; simp at hp
        · rw [if_neg h32] at hp
          cases hr5 : r4.drop 32 with
          | nil => rw [hr5] at hp; simp at hp
          | cons c r5 =>
            cases r5 with
            | nil => rw [hr5] at hp; simp at hp
            | cons d r6 =>
              simp only [hr5] at hp
              by_cases hsl : r6.length < c * 256 + d
              · rw [if_pos hsl] at hp; simp at hp
              · rw [if_neg hsl] at hp
                simp only [Except.ok.injEq, Prod.mk.injEq] at hp
                exact ⟨t, a, b2, r2, n, r4, c, d, r6, rfl, ht, hkl, hr3, h32,
                  hr5, hsl, hp.1.symm, hp.2.symm⟩

/-- Reconstruction of a successful ESTABLISH_INTRO parse from its
decomposition. -/
theorem est_intro_parse_ok_intro (t a b2 n c d : Nat) (r2 r4 r6 : List Nat)
    (ht : t = 0 ∨ t = 1 ∨ t = 2)
    (hkl : ¬ r2.length < a * 256 + b2)
    (hr3 : r2.drop (a * 256 + b2) = n :: r4)
    (h32 : ¬ r4.length < 32)
    (hr5 : r4.drop 32 = c :: d :: r6)
    (hsl : ¬ r6.length < c * 256 + d) :
    hs_cell_establish_intro_parse_into (t :: a :: b2 :: r2) =
      .ok ({ auth_key_type := t, auth_key_len := a * 256 + b2,
             auth_key := r2.take (a * 256 + b2), extensions := ⟨n⟩,
             handshake_mac := r4.take 32, sig_len := c * 256 + d,
             sig := r6.take (c * 256 + d),
             start_mac_data := 0, end_mac_data := 3 + (a * 256 + b2) + 1,
             end_sig_fields := 3 + (a * 256 + b2) + 1 + 32 + 2 },
        r6.drop (c * 256 + d)) := by
  simp only [hs_cell_establish_intro_parse_into]
  rw [if_neg (not_not_intro ht), if_neg hkl, hr3]
  simp only [cell_extension_parse]
  rw [if_neg h32]
  simp only [hr5]
  rw [if_neg hsl]

end Tor

namespace Tor

/-- C3 (amended): for every accepted input, re-encoding the parsed cell
reproduces exactly the prefix of the input the parser consumed (the
parser accepts trailing bytes it does not consume, so `encode ∘ parse`
restores the input only up to the unconsumed suffix). -/
theorem C3_codec_roundtrip_on_consumed_bytes :
    (∀ (b : List Nat), (∀ x ∈ b, x < 256) →
      ∀ (cell : hs_cell_establish_intro_t) (rest : List Nat),
      hs_cell_establish_intro_parse_into b = .ok (cell, rest) →
      (hs_cell_establish_intro_encode cell).map (· ++ rest) = some b)
    ∧ (∀ (b : List Nat) (cell : hs_cell_intro_established_t) (rest : List Nat),
      hs_cell_intro_established_parse_into b = .ok (cell, rest) →
      hs_cell_intro_established_encode cell ++ rest = b) := by
  constructor
  · intro b h256 cell rest hp
    obtain ⟨t, a, b2, r2, n, r4, c, d, r6, hb, ht, hkl, hr3, h32, hr5, hsl, hcell, hrest⟩ :=
      est_intro_parse_ok_decomp b cell rest hp
    subst hb hcell hrest
    have ha : a < 256 := h256 a (by simp)
    have hb2 : b2 < 256 := h256 b2 (by simp)
    have hc : c < 256 := by
      refine h256 c ?_
      have : c ∈ r4.drop 32 := by rw [hr5]; simp
      have hc4 : c ∈ r4 := List.mem_of_mem_drop this
      have hc3 : c ∈ r2.drop (a * 256 + b2) := by rw [hr3]; simp [hc4]
      simp [List.mem_of_mem_drop hc3]
    have hd : d < 256 := by
      refine h256 d ?_
      have : d ∈ r4.drop 32 := by rw [hr5]; simp
      have hd4 : d ∈ r4 := List.mem_of_mem_drop this
      have hd3 : d ∈ r2.drop (a * 256 + b2) := by rw [hr3]; simp [hd4]
      simp [List.mem_of_mem_drop hd3]
    have hchk : hs_cell_establish_intro_check
        { auth_key_type := t, auth_key_len := a * 256 + b2,
          auth_key := r2.take (a * 256 + b2), extensions := ⟨n⟩,
          handshake_mac := r4.take 32, sig_len := c * 256 + d,
          sig := r6.take (c * 256 + d),
          start_mac_data := 0, end_mac_data := 3 + (a * 256 + b2) + 1,
          end_sig_fields := 3 + (a * 256 + b2) + 1 + 32 + 2 } = true := by
      unfold hs_cell_establish_intro_check
      refine decide_eq_true ⟨ht, ?_, ?_⟩
      · dsimp only
        rw [List.length_take]
        omega
      · dsimp only
        rw [List.length_take]
        omega
    unfold hs_cell_establish_intro_encode
    rw [if_neg (by simp [hchk])]
    simp only [Option.map_some']
    congr 1
    have hmac : ((r4.take 32) ++ List.replicate 32 0).take 32 = r4.take 32 :=
      List.take_left' (by rw [List.length_take]; omega)
    have hu16a : u16be (a * 256 + b2) = [a, b2] := by
      unfold u16be
      congr 1
      · omega
      · congr 1
        omega
    have hu16c : u16be (c * 256 + d) = [c, d] := by
      unfold u16be
      congr 1
      · omega
      · congr 1
        omega
    rw [hmac, hu16a, hu16c, cell_extension_encode]
    simp only [List.cons_append, List.nil_append, List.append_assoc, List.singleton_append]
    rw [List.take_append_drop]
    rw [show (c :: d :: r6 : List Nat) = r4.drop 32 from hr5.symm]
    rw [List.take_append_drop]
    rw [show (n :: r4 : List Nat) = r2.drop (a * 256 + b2) from hr3.symm]
    rw [List.take_append_drop]
  · intro b cell rest hp
    match b with
    | [] => simp [hs_cell_intro_established_parse_into, cell_extension_parse] at hp
    | n :: r =>
      simp only [hs_cell_intro_established_parse_into, cell_extension_parse,
        Except.ok.injEq, Prod.mk.injEq] at hp
      rw [← hp.1, ← hp.2]
      rfl

end Tor

namespace Tor

/-- Witness for C3's amended theorem: a minimal ESTABLISH_INTRO cell and
a minimal INTRO_ESTABLISHED cell, both fully consumed, re-encode to the
full input. -/
theorem C3_codec_roundtrip_on_consumed_bytes_witness :
    (hs_cell_establish_intro_encode
        ⟨2, 0, [], ⟨0⟩, List.replicate 32 0, 0, [], 0, 4, 38⟩).map
      (· ++ ([] : List Nat)) = some ([2, 0, 0, 0] ++ List.replicate 32 0 ++ [0, 0])
    ∧ hs_cell_intro_established_encode ⟨⟨0⟩⟩ ++ ([] : List Nat) = [0] :=
  ⟨C3_codec_roundtrip_on_consumed_bytes.1 ([2, 0, 0, 0] ++ List.replicate 32 0 ++ [0, 0])
      (by decide) ⟨2, 0, [], ⟨0⟩, List.replicate 32 0, 0, [], 0, 4, 38⟩ [] (by decide),
   C3_codec_roundtrip_on_consumed_bytes.2 [0] ⟨⟨0⟩⟩ [] (by decide)⟩

/-- Counterexample to C3 as stated: the parser accepts an
ESTABLISH_INTRO byte string with one trailing junk byte (returning the
number of bytes consumed, which the caller accepts), but re-encoding
the parsed cell does not reproduce that byte string. -/
theorem C3_codec_roundtrip_counterexample :
    hs_cell_establish_intro_parse_into
        ([2, 0, 0, 0] ++ List.replicate 32 0 ++ [0, 0, 9]) =
      .ok (⟨2, 0, [], ⟨0⟩, List.replicate 32 0, 0, [], 0, 4, 38⟩, [9])
    ∧ hs_cell_establish_intro_encode
        ⟨2, 0, [], ⟨0⟩, List.replicate 32 0, 0, [], 0, 4, 38⟩ ≠
      some ([2, 0, 0, 0] ++ List.replicate 32 0 ++ [0, 0, 9]) := by
  constructor
  · decide
  · decide

end Tor

namespace Tor

/-- An out-of-range tag makes the parse Invalid. -/
theorem est_intro_parse_invalid_intro (t : Nat) (r : List Nat)
    (ht : ¬ (t = 0 ∨ t = 1 ∨ t = 2)) :
    hs_cell_establish_intro_parse_into (t :: r) = .error .invalid := by
  simp only [hs_cell_establish_intro_parse_into]
  rw [if_pos ht]

/-- Invalid arises only from an out-of-range tag: every other failure of
the parser is Truncated. -/
theorem est_intro_parse_invalid_elim (b : List Nat)
    (hp : hs_cell_establish_intro_parse_into b = .error .invalid) :
    ∃ t r, b = t :: r ∧ ¬ (t = 0 ∨ t = 1 ∨ t = 2) := by
  match b with
  | [] => simp [hs_cell_establish_intro_parse_into] at hp
  | [t] =>
    by_cases ht : t = 0 ∨ t = 1 ∨ t = 2
    · exfalso
      simp only [hs_cell_establish_intro_parse_into] at hp
      rw [if_neg (not_not_intro ht)] at hp
      simp at hp
    · exact ⟨t, [], rfl, ht⟩
  | [t, a] =>
    by_cases ht : t = 0 ∨ t = 1 ∨ t = 2
    · exfalso
      simp only [hs_cell_establish_intro_parse_into] at hp
      rw [if_neg (not_not_intro ht)] at hp
      simp at hp
    · exact ⟨t, [a], rfl, ht⟩
  | t :: a :: b2 :: r2 =>
    by_cases ht : t = 0 ∨ t = 1 ∨ t = 2
    case neg => exact ⟨t, a :: b2 :: r2, rfl, ht⟩
    case pos =>
    exfalso
    simp only [hs_cell_establish_intro_parse_into] at hp
    rw [if_neg (not_not_intro ht)] at hp
    by_cases hkl : r2.length < a * 256 + b2
    · rw [if_pos hkl] at hp; simp at hp
    · rw [if_neg hkl] at hp
      cases hr3 : r2.drop (a * 256 + b2) with
      | nil => rw [hr3] at hp; simp [cell_extension_parse] at hp
      | cons n r4 =>
        rw [hr3] at hp
        simp only [cell_extension_parse] at hp
        by_cases h32 : r4.length < 32
        · rw [if_pos h32] at hp; simp at hp
        · rw [if_neg h32] at hp
          cases hr5 : r4.drop 32 with
          | nil => rw [hr5] at hp; simp at hp
          | cons c r5 =>
            cases r5 with
            | nil => rw [hr5] at hp; simp at hp
            | cons d r6 =>
              simp only [hr5] at hp
              by_cases hsl : r6.length < c * 256 + d
              · rw [if_pos hsl] at hp; simp at hp
              · rw [if_neg hsl] at hp; simp at hp

/-- Appending bytes to an accepted input leaves the parse unchanged and
extends the unconsumed suffix. -/
theorem est_intro_parse_ok_append (b e : List Nat)
    (cell : hs_cell_establish_intro_t) (rest : List Nat)
    (hp : hs_cell_establish_intro_parse_into b = .ok (cell, rest)) :
    hs_cell_establish_intro_parse_into (b ++ e) = .ok (cell, rest ++ e) := by
  obtain ⟨t, a, b2, r2, n, r4, c, d, r6, hb, ht, hkl, hr3, h32, hr5, hsl, hcell, hrest⟩ :=
    est_intro_parse_ok_decomp b cell rest hp
  subst hb hcell hrest
  have hkl2 : a * 256 + b2 ≤ r2.length := by omega
  have h322 : 32 ≤ r4.length := by omega
  have hsl2 : c * 256 + d ≤ r6.length := by omega
  have hkl' : ¬ (r2 ++ e).length < a * 256 + b2 := by
    rw [List.length_append]; omega
  have hr3' : (r2 ++ e).drop (a * 256 + b2) = n :: (r4 ++ e) := by
    rw [List.drop_append_of_le_length hkl2, hr3]; rfl
  have h32' : ¬ (r4 ++ e).length < 32 := by
    rw [List.length_append]; omega
  have hr5' : (r4 ++ e).drop 32 = c :: d :: (r6 ++ e) := by
    rw [List.drop_append_of_le_length h322, hr5]; rfl
  have hsl' : ¬ (r6 ++ e).length < c * 256 + d := by
    rw [List.length_append]; omega
  have hmain := est_intro_parse_ok_intro t a b2 n c d (r2 ++ e) (r4 ++ e) (r6 ++ e)
    ht hkl' hr3' h32' hr5' hsl'
  rw [show (t :: a :: b2 :: r2) ++ e = t :: a :: b2 :: (r2 ++ e) by rfl, hmain]
  rw [List.take_append_of_le_length hkl2, List.take_append_of_le_length h322,
      List.take_append_of_le_length hsl2, List.drop_append_of_le_length hsl2]

/-- Appending bytes to an Invalid input keeps it Invalid. -/
theorem est_intro_parse_invalid_append (b e : List Nat)
    (hp : hs_cell_establish_intro_parse_into b = .error .invalid) :
    hs_cell_establish_intro_parse_into (b ++ e) = .error .invalid := by
  obtain ⟨t, r, hb, ht⟩ := est_intro_parse_invalid_elim b hp
  subst hb
  exact est_intro_parse_invalid_intro t (r ++ e) ht

end Tor

namespace Tor

/-- A Truncated input is exactly an input that stopped short: it can be
completed with further bytes into a fully-consumed accepted input. -/
theorem est_intro_parse_truncated_complete (b : List Nat)
    (hp : hs_cell_establish_intro_parse_into b = .error .truncated) :
    ∃ e cell, hs_cell_establish_intro_parse_into (b ++ e) = .ok (cell, []) := by
  match b with
  | [] =>
    refine ⟨[0, 0, 0, 0] ++ List.replicate 32 0 ++ [0, 0],
      ⟨0, 0, [], ⟨0⟩, List.replicate 32 0, 0, [], 0, 4, 38⟩, ?_⟩
    rw [List.nil_append]
    decide
  | [t] =>
    have ht : t = 0 ∨ t = 1 ∨ t = 2 := by
      by_contra ht
      rw [est_intro_parse_invalid_intro t [] ht] at hp
      simp at hp
    have hmain := est_intro_parse_ok_intro t 0 0 0 0 0
      (0 :: (List.replicate 32 0 ++ [0, 0])) (List.replicate 32 0 ++ [0, 0]) []
      ht (by decide) (by decide) (by decide) (by decide) (by decide)
    exact ⟨[0, 0] ++ (0 :: (List.replicate 32 0 ++ [0, 0])), _, hmain⟩
  | [t, a] =>
    have ht : t = 0 ∨ t = 1 ∨ t = 2 := by
      by_contra ht
      rw [est_intro_parse_invalid_intro t [a] ht] at hp
      simp at hp
    have hmain := est_intro_parse_ok_intro t a 0 0 0 0
      (List.replicate (a * 256) 0 ++ (0 :: (List.replicate 32 0 ++ [0, 0])))
      (List.replicate 32 0 ++ [0, 0]) [] ht
      (by rw [List.length_append, List.length_replicate]; simp)
      (by
        refine List.drop_left' ?_
        rw [List.length_replicate]
        omega)
      (by simp) (by decide) (by decide)
    exact ⟨[0] ++ (List.replicate (a * 256) 0 ++ (0 :: (List.replicate 32 0 ++ [0, 0]))),
      _, hmain⟩
  | t :: a :: b2 :: r2 =>
    have ht : t = 0 ∨ t = 1 ∨ t = 2 := by
      by_contra ht
      rw [est_intro_parse_invalid_intro t (a :: b2 :: r2) ht] at hp
      simp at hp
    simp only [hs_cell_establish_intro_parse_into] at hp
    rw [if_neg (not_not_intro ht)] at hp
    by_cases hkl : r2.length < a * 256 + b2
    · -- stalled inside auth_key
      have hmain := est_intro_parse_ok_intro t a b2 0 0 0
        (r2 ++ (List.replicate (a * 256 + b2 - r2.length) 0 ++
          (0 :: (List.replicate 32 0 ++ [0, 0]))))
        (List.replicate 32 0 ++ [0, 0]) [] ht
        (by
          rw [List.length_append, List.length_append, List.length_replicate]
          simp
          omega)
        (by
          rw [show r2 ++ (List.replicate (a * 256 + b2 - r2.length) 0 ++
                (0 :: (List.replicate 32 0 ++ [0, 0]))) =
              (r2 ++ List.replicate (a * 256 + b2 - r2.length) 0) ++
                (0 :: (List.replicate 32 0 ++ [0, 0])) by rw [List.append_assoc]]
          exact List.drop_left'
            (by rw [List.length_append, List.length_replicate]; omega))
        (by simp) (by decide) (by decide)
      exact ⟨List.replicate (a * 256 + b2 - r2.length) 0 ++
        (0 :: (List.replicate 32 0 ++ [0, 0])), _, hmain⟩
    · rw [if_neg hkl] at hp
      have hkl2 : a * 256 + b2 ≤ r2.length := by omega
      cases hr3 : r2.drop (a * 256 + b2) with
      | nil =>
        -- stalled at the extension byte
        have hlen : r2.length = a * 256 + b2 := by
          have := List.drop_eq_nil_iff.mp hr3
          omega
        have hmain := est_intro_parse_ok_intro t a b2 0 0 0
          (r2 ++ (0 :: (List.replicate 32 0 ++ [0, 0])))
          (List.replicate 32 0 ++ [0, 0]) [] ht
          (by rw [List.length_append]; omega)
          (List.drop_left' hlen) (by simp) (by decide) (by decide)
        exact ⟨0 :: (List.replicate 32 0 ++ [0, 0]), _, hmain⟩
      | cons n r4 =>
        rw [hr3] at hp
        simp only [cell_extension_parse] at hp
        by_cases h32 : r4.length < 32
        · -- stalled inside the MAC
          have hmain := est_intro_parse_ok_intro t a b2 n 0 0
            (r2 ++ (List.replicate (32 - r4.length) 0 ++ [0, 0]))
            (r4 ++ (List.replicate (32 - r4.length) 0 ++ [0, 0])) [] ht
            (by rw [List.length_append]; omega)
            (by rw [List.drop_append_of_le_length hkl2, hr3]; rfl)
            (by
              rw [List.length_append, List.length_append, List.length_replicate]
              simp
              omega)
            (by
              rw [show r4 ++ (List.replicate (32 - r4.length) 0 ++ [0, 0]) =
                  (r4 ++ List.replicate (32 - r4.length) 0) ++ [0, 0] by
                rw [List.append_assoc]]
              exact List.drop_left'
                (by rw [List.length_append, List.length_replicate]; omega))
            (by decide)
          exact ⟨List.replicate (32 - r4.length) 0 ++ [0, 0], _, hmain⟩
        · rw [if_neg h32] at hp
          have h322 : 32 ≤ r4.length := by omega
          cases hr5 : r4.drop 32 with
          | nil =>
            -- stalled at sig_len with no bytes left
            have hmain := est_intro_parse_ok_intro t a b2 n 0 0
              (r2 ++ [0, 0]) (r4 ++ [0, 0]) [] ht
              (by rw [List.length_append]; omega)
              (by rw [List.drop_append_of_le_length hkl2, hr3]; rfl)
              (by rw [List.length_append]; omega)
              (by rw [List.drop_append_of_le_length h322, hr5]; rfl)
              (by decide)
            exact ⟨[0, 0], _, hmain⟩
          | cons c r5 =>
            cases r5 with
            | nil =>
              -- stalled at sig_len with one byte left
              have hmain := est_intro_parse_ok_intro t a b2 n c 0
                (r2 ++ (0 :: List.replicate (c * 256) 0))
                (r4 ++ (0 :: List.replicate (c * 256) 0))
                (List.replicate (c * 256) 0) ht
                (by rw [List.length_append]; omega)
                (by rw [List.drop_append_of_le_length hkl2, hr3]; rfl)
                (by rw [List.length_append]; omega)
                (by rw [List.drop_append_of_le_length h322, hr5]; rfl)
                (by rw [List.length_replicate]; omega)
              rw [List.drop_eq_nil_of_le
                (by rw [List.length_replicate]; omega)] at hmain
              exact ⟨0 :: List.replicate (c * 256) 0, _, hmain⟩
            | cons d r6 =>
              simp only [hr5] at hp
              have hsl : r6.length < c * 256 + d := by
                by_contra hsl
                rw [if_neg hsl] at hp
                simp at hp
              -- stalled inside the signature
              have hmain := est_intro_parse_ok_intro t a b2 n c d
                (r2 ++ List.replicate (c * 256 + d - r6.length) 0)
                (r4 ++ List.replicate (c * 256 + d - r6.length) 0)
                (r6 ++ List.replicate (c * 256 + d - r6.length) 0) ht
                (by rw [List.length_append]; omega)
                (by rw [List.drop_append_of_le_length hkl2, hr3]; rfl)
                (by rw [List.length_append]; omega)
                (by rw [List.drop_append_of_le_length h322, hr5]; rfl)
                (by rw [List.length_append, List.length_replicate]; omega)
              rw [List.drop_eq_nil_of_le
                (by rw [List.length_append, List.length_replicate]; omega)] at hmain
              exact ⟨List.replicate (c * 256 + d - r6.length) 0, _, hmain⟩

end Tor

namespace Tor

/-- C4: the ESTABLISH_INTRO parser distinguishes its failure modes.  It
returns Invalid (`-1`) exactly for inputs whose leading `auth_key_type`
tag is outside `{0,1,2}`; it returns Truncated (`-2`) exactly for inputs
that end before the declared fields are complete — every Truncated input
extends to a fully-consumed accepted input, and every strict prefix of a
fully-consumed accepted input is reported Truncated, never Invalid. -/
theorem C4_establish_intro_error_modes :
    (∀ b : List Nat,
      hs_cell_establish_intro_parse_into b = .error .invalid ↔
        ∃ t r, b = t :: r ∧ ¬ (t = 0 ∨ t = 1 ∨ t = 2))
    ∧ (∀ b : List Nat,
      hs_cell_establish_intro_parse_into b = .error .truncated →
        ∃ e cell, hs_cell_establish_intro_parse_into (b ++ e) = .ok (cell, []))
    ∧ (∀ (b e : List Nat) (cell : hs_cell_establish_intro_t),
      hs_cell_establish_intro_parse_into (b ++ e) = .ok (cell, []) → e ≠ [] →
        hs_cell_establish_intro_parse_into b = .error .truncated) := by
  refine ⟨fun b => ⟨est_intro_parse_invalid_elim b, ?_⟩,
    est_intro_parse_truncated_complete, ?_⟩
  · rintro ⟨t, r, rfl, ht⟩
    exact est_intro_parse_invalid_intro t r ht
  · intro b e cell h he
    cases hq : hs_cell_establish_intro_parse_into b with
    | ok p =>
      obtain ⟨cell', rest'⟩ := p
      have := est_intro_parse_ok_append b e cell' rest' hq
      rw [h] at this
      have hres : rest' ++ e = [] := by
        injection this with h1
        injection h1 with _ h2
        exact h2.symm
      exact absurd (List.append_eq_nil.mp hres).2 he
    | error err =>
      cases err with
      | truncated => rfl
      | invalid =>
        have := est_intro_parse_invalid_append b e hq
        rw [h] at this
        simp at this

/-- Witness for C4: an out-of-range tag is Invalid; the Truncated input
`[2]` completes to an accepted cell; and the strict prefix `[2, 0]` of a
fully-consumed accepted cell is Truncated. -/
theorem C4_establish_intro_error_modes_witness :
    hs_cell_establish_intro_parse_into [3] = .error .invalid
    ∧ (∃ e cell, hs_cell_establish_intro_parse_into ([2] ++ e) = .ok (cell, []))
    ∧ hs_cell_establish_intro_parse_into [2, 0] = .error .truncated :=
  ⟨(C4_establish_intro_error_modes.1 [3]).mpr ⟨3, [], rfl, by decide⟩,
   C4_establish_intro_error_modes.2.1 [2] (by decide),
   C4_establish_intro_error_modes.2.2 [2, 0]
     ([0, 0] ++ List.replicate 32 0 ++ [0, 0])
     ⟨2, 0, [], ⟨0⟩, List.replicate 32 0, 0, [], 0, 4, 38⟩
     (by decide) (by decide)⟩

end Tor
